import Mathlib

/-!
Verification development for the MiniDB SQL front end
(`src/sql_compiler/lexer.py`, `parser.py`, `ast_nodes.py`, `catalog.py`).

The Python sources are shallowly embedded below:
  * `tokenize` mirrors `SQLLexer.tokenize` in `lexer.py`, scanning a list of
    characters while tracking 1-based line/column positions.  Character
    classification (`isdigit`, `isalpha`, `isalnum`, `isspace`, `str.upper`)
    is modelled on the ASCII range, which is the range exercised by the
    SQL dialect.
  * the `parse_*` functions mirror `SQLParser` in `parser.py`.  The Python
    parser keeps an index into the token list and only ever inspects the
    current token and moves forward, so the embedding passes the remaining
    token suffix explicitly; `current_token []` is the synthetic
    `Token(EOF, "", 0, 0)` that `SQLParser.advance` substitutes past the end.
    Loops (`while` statements in the source) take a fuel argument that is
    instantiated with more fuel than iterations are possible, since every
    iteration of every source loop consumes at least one token; running out
    of fuel returns an error, so `ok` results are always genuine.
  * the catalog mirrors `catalog.py`; the Python `dict` (insertion ordered,
    unique keys) is modelled as an association list, `dict.get` as the first
    matching entry.  The serialized record of `to_dict`/`from_dict` is
    modelled by `ColumnRec`/`TableRec`, whose fields are always present, as
    they are in every record `to_dict` emits.
  * `UpdateStatement` is constructed by `SQLParser.parse_update` but its
    class is absent from `ast_nodes.py`; its embedding below is modelled
    from the spec.
-/

namespace MiniDB

/-! ## Character helpers (ASCII model of the Python character classes) -/

/-- ASCII model of `str.isdigit` as used by the lexer. -/
def is_digit (c : Char) : Bool := 48 ≤ c.toNat && c.toNat ≤ 57

/-- ASCII model of `str.isalpha` as used by the lexer. -/
def is_alpha (c : Char) : Bool :=
  (65 ≤ c.toNat && c.toNat ≤ 90) || (97 ≤ c.toNat && c.toNat ≤ 122)

/-- ASCII model of `str.isalnum` as used by the lexer. -/
def is_alnum (c : Char) : Bool := is_alpha c || is_digit c

/-- ASCII model of `str.isspace` as used by `skip_whitespace`. -/
def is_space (c : Char) : Bool :=
  c == ' ' || c == '\t' || c == '\n' || c == '\r' ||
  c == Char.ofNat 11 || c == Char.ofNat 12

/-- Lower-case ASCII letter test, the range `str.upper` maps down by 32. -/
def is_lower_ascii (c : Char) : Bool := 97 ≤ c.toNat && c.toNat ≤ 122

/-- ASCII model of `str.upper` on one character. -/
def upper_char (c : Char) : Char :=
  if is_lower_ascii c then Char.ofNat (c.toNat - 32) else c

/-- ASCII model of `str.upper`. -/
def upper_str (s : String) : String := ⟨s.data.map upper_char⟩

/-- Decimal value of a digit string, the `int(...)` conversions in the parser. -/
def str_to_nat (s : String) : Nat :=
  s.data.foldl (fun acc ch => acc * 10 + (ch.toNat - 48)) 0

/-- The single quote character. -/
def single_quote : Char := Char.ofNat 39

/-- The double quote character. -/
def double_quote : Char := Char.ofNat 34

/-- The backslash character. -/
def backslash_char : Char := Char.ofNat 92

/-! ## Tokens (`lexer.py`) -/

/-- Mirrors `TokenType` in `lexer.py`. -/
inductive TokenType where
  | keyword
  | identifier
  | integer
  | string
  | equals
  | not_equals
  | less_than
  | greater_than
  | less_equals
  | greater_equals
  | comma
  | semicolon
  | left_paren
  | right_paren
  | eof
  | error
deriving DecidableEq, Repr

/-- The `.name` of a `TokenType` member, used in `ParseError.expected`. -/
def token_type_name : TokenType → String
  | .keyword => "KEYWORD"
  | .identifier => "IDENTIFIER"
  | .integer => "INTEGER"
  | .string => "STRING"
  | .equals => "EQUALS"
  | .not_equals => "NOT_EQUALS"
  | .less_than => "LESS_THAN"
  | .greater_than => "GREATER_THAN"
  | .less_equals => "LESS_EQUALS"
  | .greater_equals => "GREATER_EQUALS"
  | .comma => "COMMA"
  | .semicolon => "SEMICOLON"
  | .left_paren => "LEFT_PAREN"
  | .right_paren => "RIGHT_PAREN"
  | .eof => "EOF"
  | .error => "ERROR"

/-- Mirrors the `Token` dataclass in `lexer.py`. -/
structure Token where
  type : TokenType
  value : String
  line : Nat
  column : Nat
deriving DecidableEq, Repr

/-- Mirrors `LexerError` in `lexer.py` (message plus 1-based position). -/
structure LexerError where
  message : String
  line : Nat
  column : Nat
deriving DecidableEq, Repr

/-- Mirrors `SQLLexer.KEYWORDS` in `lexer.py` lines 63 to 66.  Note the set
has 16 members: it does not contain UPDATE or SET. -/
def KEYWORDS : List String :=
  ["CREATE", "TABLE", "INSERT", "INTO", "SELECT", "FROM", "WHERE",
   "VALUES", "DELETE", "INT", "INTEGER", "VARCHAR", "CHAR", "AND", "OR", "NOT"]

/-- Mirrors the `SQLLexer.OPERATORS` mapping. -/
def operator_type (s : String) : Option TokenType :=
  if s == "=" then some .equals
  else if s == "!=" then some .not_equals
  else if s == "<>" then some .not_equals
  else if s == "<" then some .less_than
  else if s == ">" then some .greater_than
  else if s == "<=" then some .less_equals
  else if s == ">=" then some .greater_equals
  else none

/-- Mirrors the `SQLLexer.DELIMITERS` mapping. -/
def delimiter_type (c : Char) : Option TokenType :=
  if c == ',' then some .comma
  else if c == ';' then some .semicolon
  else if c == '(' then some .left_paren
  else if c == ')' then some .right_paren
  else none

/-- Position update of `SQLLexer.advance`: newline bumps the line and resets
the column to 1, any other character bumps the column. -/
def adv (c : Char) (line col : Nat) : Nat × Nat :=
  if c == '\n' then (line + 1, 1) else (line, col + 1)

/-- Mirrors `SQLLexer.skip_whitespace`. -/
def skip_whitespace : List Char → Nat → Nat → List Char × Nat × Nat
  | [], l, c => ([], l, c)
  | ch :: rest, l, c =>
    if is_space ch then
      let p := adv ch l c
      skip_whitespace rest p.1 p.2
    else (ch :: rest, l, c)

/-- Mirrors `SQLLexer.read_number`: the maximal digit run and what follows. -/
def read_number : List Char → Nat → Nat → List Char × List Char × Nat × Nat
  | [], l, c => ([], [], l, c)
  | ch :: rest, l, c =>
    if is_digit ch then
      let p := adv ch l c
      let r := read_number rest p.1 p.2
      (ch :: r.1, r.2.1, r.2.2.1, r.2.2.2)
    else ([], ch :: rest, l, c)

/-- Mirrors `SQLLexer.read_identifier`: the maximal alphanumeric or
underscore run and what follows. -/
def read_identifier : List Char → Nat → Nat → List Char × List Char × Nat × Nat
  | [], l, c => ([], [], l, c)
  | ch :: rest, l, c =>
    if is_alnum ch || ch == '_' then
      let p := adv ch l c
      let r := read_identifier rest p.1 p.2
      (ch :: r.1, r.2.1, r.2.2.1, r.2.2.2)
    else ([], ch :: rest, l, c)

/-- Body of `SQLLexer.read_string` after the opening quote `q` was consumed;
`sl`/`sc` anchor the unterminated-string error at the opening quote. -/
def read_string_core (q : Char) (sl sc : Nat) :
    List Char → Nat → Nat → Except LexerError (List Char × List Char × Nat × Nat)
  | [], _, _ => .error ⟨"Unterminated string literal", sl, sc⟩
  | ch :: rest, l, c =>
    if ch == q then
      let p := adv ch l c
      .ok ([], rest, p.1, p.2)
    else if ch == backslash_char then
      match rest with
      | [] => .error ⟨"Unterminated string literal", sl, sc⟩
      | e :: rest2 =>
        let p := adv ch l c
        let p2 := adv e p.1 p.2
        let mapped : Char :=
          if e == 'n' then '\n'
          else if e == 't' then '\t'
          else if e == 'r' then '\r'
          else if e == backslash_char then backslash_char
          else if e == q then q
          else e
        (read_string_core q sl sc rest2 p2.1 p2.2).map
          (fun r => (mapped :: r.1, r.2.1, r.2.2.1, r.2.2.2))
    else
      let p := adv ch l c
      (read_string_core q sl sc rest p.1 p.2).map
        (fun r => (ch :: r.1, r.2.1, r.2.2.1, r.2.2.2))

/-- Mirrors `SQLLexer.read_string`; the head of the input is the quote. -/
def read_string (cs : List Char) (l c : Nat) :
    Except LexerError (String × List Char × Nat × Nat) :=
  match cs with
  | [] => .error ⟨"Unterminated string literal", l, c⟩
  | q :: rest =>
    let p := adv q l c
    (read_string_core q l c rest p.1 p.2).map
      (fun r => (⟨r.1⟩, r.2.1, r.2.2.1, r.2.2.2))

/-- Mirrors `SQLLexer.read_operator`; the caller guarantees the head is one
of `= ! < >`. -/
def read_operator : List Char → Nat → Nat → String × List Char × Nat × Nat
  | [], l, c => ("", [], l, c)
  | ch :: rest, l, c =>
    if ch == '!' || ch == '<' || ch == '>' then
      match rest with
      | e :: rest2 =>
        if e == '=' then
          let p := adv ch l c
          let p2 := adv e p.1 p.2
          (⟨[ch, '=']⟩, rest2, p2.1, p2.2)
        else if ch == '<' && e == '>' then
          let p := adv ch l c
          let p2 := adv e p.1 p.2
          ("<>", rest2, p2.1, p2.2)
        else
          let p := adv ch l c
          (⟨[ch]⟩, rest, p.1, p.2)
      | [] =>
        let p := adv ch l c
        (⟨[ch]⟩, rest, p.1, p.2)
    else
      let p := adv ch l c
      (⟨[ch]⟩, rest, p.1, p.2)

/-- Line comment skip of `tokenize`: discard up to (not including) the next
newline. -/
def skip_line_comment : List Char → Nat → Nat → List Char × Nat × Nat
  | [], l, c => ([], l, c)
  | ch :: rest, l, c =>
    if ch == '\n' then (ch :: rest, l, c)
    else
      let p := adv ch l c
      skip_line_comment rest p.1 p.2

/-- Block comment scan of `tokenize` after the opening slash-star was
consumed; `none` means the input ended before the closer. -/
def read_block_comment : List Char → Nat → Nat → Option (List Char × Nat × Nat)
  | [], _, _ => none
  | '*' :: '/' :: rest, l, c =>
    let p := adv '*' l c
    let p2 := adv '/' p.1 p.2
    some (rest, p2.1, p2.2)
  | ch :: rest, l, c =>
    let p := adv ch l c
    read_block_comment rest p.1 p.2

/-- One pass of the scanning loop in `SQLLexer.tokenize`.  The result is the
accumulated tokens, the final position, and the raised `LexerError` if any.
The string branch mirrors the inner handler of `tokenize`, which appends an
error token itself before re-raising. -/
def lex_loop : Nat → List Char → Nat → Nat → List Token →
    List Token × Nat × Nat × Option LexerError
  | 0, _, l, c, acc => (acc, l, c, some ⟨"lexer fuel exhausted", 0, 0⟩)
  | fuel + 1, cs, l, c, acc =>
    match cs with
    | [] => (acc, l, c, none)
    | _ :: _ =>
      let s := skip_whitespace cs l c
      match s.1, s.2.1, s.2.2 with
      | [], l1, c1 => (acc, l1, c1, none)
      | ch :: rest, l1, c1 =>
        if ch == double_quote || ch == single_quote then
          match read_string (ch :: rest) l1 c1 with
          | .ok (v, cs2, l2, c2) =>
            lex_loop fuel cs2 l2 c2 (acc ++ [⟨.string, v, l1, c1⟩])
          | .error e =>
            (acc ++ [⟨.error, e.message, l1, c1⟩], l1, c1, some e)
        else if is_digit ch then
          let r := read_number (ch :: rest) l1 c1
          lex_loop fuel r.2.1 r.2.2.1 r.2.2.2 (acc ++ [⟨.integer, ⟨r.1⟩, l1, c1⟩])
        else if is_alpha ch || ch == '_' then
          let r := read_identifier (ch :: rest) l1 c1
          let uv := upper_str ⟨r.1⟩
          let tt := if KEYWORDS.contains uv then TokenType.keyword else TokenType.identifier
          lex_loop fuel r.2.1 r.2.2.1 r.2.2.2 (acc ++ [⟨tt, uv, l1, c1⟩])
        else if ch == '=' || ch == '!' || ch == '<' || ch == '>' then
          let r := read_operator (ch :: rest) l1 c1
          match operator_type r.1 with
          | some tt => lex_loop fuel r.2.1 r.2.2.1 r.2.2.2 (acc ++ [⟨tt, r.1, l1, c1⟩])
          | none =>
            (acc, l1, c1, some ⟨"Unknown operator \x27" ++ r.1 ++ "\x27", l1, c1⟩)
        else
          match delimiter_type ch with
          | some tt =>
            let p := adv ch l1 c1
            lex_loop fuel rest p.1 p.2 (acc ++ [⟨tt, ⟨[ch]⟩, l1, c1⟩])
          | none =>
            if ch == '-' && rest.head? == some '-' then
              let r := skip_line_comment (ch :: rest) l1 c1
              lex_loop fuel r.1 r.2.1 r.2.2 acc
            else if ch == '/' && rest.head? == some '*' then
              let p := adv ch l1 c1
              let p2 := adv '*' p.1 p.2
              match read_block_comment rest.tail p2.1 p2.2 with
              | some (cs2, l2, c2) => lex_loop fuel cs2 l2 c2 acc
              | none => (acc, l1, c1, some ⟨"Unterminated comment", l1, c1⟩)
            else
              (acc, l1, c1,
               some ⟨"Unexpected character \x27" ++ ⟨[ch]⟩ ++ "\x27", l1, c1⟩)

/-- Mirrors `SQLLexer.tokenize`: on success one terminal EOF token is
appended; on a lexical error the outer handler appends a terminal error
token carrying the message and position of the raised error. -/
def tokenize (source : String) : List Token × Option LexerError :=
  match lex_loop (source.length + 1) source.data 1 1 [] with
  | (toks, l, c, none) => (toks ++ [⟨.eof, "", l, c⟩], none)
  | (toks, _, _, some e) => (toks ++ [⟨.error, e.message, e.line, e.column⟩], some e)

/-! ## AST nodes (`ast_nodes.py`) -/

/-- Payload of a `Literal` node: `parse_literal` stores a Python `int` for
INTEGER tokens and a `str` for STRING tokens. -/
inductive LitValue where
  | intVal (n : Nat)
  | strVal (s : String)
deriving DecidableEq, Repr

/-- The expression variants `Identifier`, `Literal` and `BinaryExpression`
of `ast_nodes.py`, with their `(line, column)` fields. -/
inductive Expression where
  | identifier (name : String) (line column : Nat)
  | literal (value : LitValue) (data_type : String) (line column : Nat)
  | binary (left : Expression) (op : String) (right : Expression) (line column : Nat)
deriving DecidableEq, Repr

/-- Mirrors the `DataType` node of `ast_nodes.py`. -/
structure DataType where
  type_name : String
  size : Option Nat
  line : Nat
  column : Nat
deriving DecidableEq, Repr

/-- The `DataType` constructor, which upper-cases its `type_name` argument. -/
def DataType.make (type_name : String) (size : Option Nat) (line column : Nat) : DataType :=
  ⟨upper_str type_name, size, line, column⟩

/-- Mirrors the `ColumnDef` node of `ast_nodes.py`. -/
structure ColumnDef where
  name : String
  data_type : DataType
  line : Nat
  column : Nat
deriving DecidableEq, Repr

/-- Mirrors `CreateTableStatement`. -/
structure CreateTableStatement where
  table_name : String
  columns : List ColumnDef
  line : Nat
  column : Nat
deriving DecidableEq, Repr

/-- Mirrors `InsertStatement`; `values` is a list of value rows. -/
structure InsertStatement where
  table_name : String
  columns : Option (List String)
  values : List (List Expression)
  line : Nat
  column : Nat
deriving DecidableEq, Repr

/-- Mirrors `SelectStatement`. -/
structure SelectStatement where
  select_list : List Expression
  from_table : String
  where_clause : Option Expression
  line : Nat
  column : Nat
deriving DecidableEq, Repr

/-- Mirrors `DeleteStatement`. -/
structure DeleteStatement where
  table_name : String
  where_clause : Option Expression
  line : Nat
  column : Nat
deriving DecidableEq, Repr

/-- Modelled from the spec: `UpdateStatement{table_name, assignments:
ordered sequence of (column_name, value-expression) pairs, optional
where_clause}` plus the `(line, column)` every node carries.  The class is
missing from `ast_nodes.py` even though `parser.py` imports it and
`parse_update` constructs it with exactly these five arguments. -/
structure UpdateStatement where
  table_name : String
  assignments : List (String × Expression)
  where_clause : Option Expression
  line : Nat
  column : Nat
deriving DecidableEq, Repr

/-- The closed set of statement variants (subclasses of `Statement` in
`ast_nodes.py`). -/
inductive Statement where
  | create (s : CreateTableStatement)
  | insert (s : InsertStatement)
  | select (s : SelectStatement)
  | delete (s : DeleteStatement)
  | update (s : UpdateStatement)
deriving DecidableEq, Repr

/-- Mirrors `SQLProgram`, the parse root. -/
structure SQLProgram where
  statements : List Statement
  line : Nat
  column : Nat
deriving DecidableEq, Repr

/-! ## Parser (`parser.py`)

The parser state is the remaining token suffix.  `current_token` of the
empty suffix is the synthetic EOF token that `SQLParser.advance` installs
when moving past the end of the token list; `advance` is `List.tail`. -/

/-- Mirrors `ParseError` (message, offending token, optional expectation). -/
structure ParseError where
  message : String
  token : Token
  expected : Option String
deriving DecidableEq, Repr

/-- The token the parser is looking at. -/
def current_token : List Token → Token
  | [] => ⟨.eof, "", 0, 0⟩
  | t :: _ => t

/-- Mirrors `SQLParser.match` with a single token type. -/
def match1 (ts : List Token) (tt : TokenType) : Bool :=
  (current_token ts).type == tt

/-- Mirrors `SQLParser.match` with several token types. -/
def match_any (ts : List Token) (tts : List TokenType) : Bool :=
  tts.contains (current_token ts).type

/-- Mirrors `SQLParser.consume`. -/
def consume (ts : List Token) (tt : TokenType) (msg : String) :
    Except ParseError (Token × List Token) :=
  if match1 ts tt then .ok (current_token ts, ts.tail)
  else
    .error ⟨(if msg == "" then "Expected " ++ token_type_name tt else msg),
            current_token ts, some (token_type_name tt)⟩

/-- Mirrors `SQLParser.parse_literal`. -/
def parse_literal (ts : List Token) : Except ParseError (Expression × List Token) :=
  let t := current_token ts
  if t.type == .integer then
    .ok (.literal (.intVal (str_to_nat t.value)) "INT" t.line t.column, ts.tail)
  else if t.type == .string then
    .ok (.literal (.strVal t.value) "STRING" t.line t.column, ts.tail)
  else .error ⟨"Expected literal value", t, none⟩

/-- Mirrors `SQLParser.parse_primary`. -/
def parse_primary (ts : List Token) : Except ParseError (Expression × List Token) :=
  let t := current_token ts
  if t.type == .identifier then
    .ok (.identifier t.value t.line t.column, ts.tail)
  else if t.type == .integer || t.type == .string then
    parse_literal ts
  else .error ⟨"Expected identifier or literal", t, none⟩

/-- Mirrors `SQLParser.parse_comparison`. -/
def parse_comparison (ts : List Token) : Except ParseError (Expression × List Token) := do
  let (left, ts1) ← parse_primary ts
  if match_any ts1 [.equals, .not_equals, .less_than, .greater_than,
                    .less_equals, .greater_equals] then
    let t := current_token ts1
    let (right, ts2) ← parse_primary ts1.tail
    return (.binary left t.value right t.line t.column, ts2)
  else
    return (left, ts1)

/-- Mirrors `SQLParser.parse_expression`. -/
def parse_expression (ts : List Token) : Except ParseError (Expression × List Token) :=
  parse_comparison ts

/-- Mirrors `SQLParser.parse_data_type`. -/
def parse_data_type (ts : List Token) : Except ParseError (DataType × List Token) := do
  let t := current_token ts
  if t.type == .keyword then
    let type_name := upper_str t.value
    let ts1 := ts.tail
    if (type_name == "VARCHAR" || type_name == "CHAR") && match1 ts1 .left_paren then
      let ts2 := ts1.tail
      let (size_tok, ts3) ← consume ts2 .integer "Expected size after \x27(\x27"
      let (_, ts4) ← consume ts3 .right_paren "Expected \x27)\x27 after size"
      return (DataType.make type_name (some (str_to_nat size_tok.value)) t.line t.column, ts4)
    else
      return (DataType.make type_name none t.line t.column, ts1)
  else
    throw ⟨"Expected data type", t, some "INT, INTEGER, VARCHAR, or CHAR"⟩

/-- Mirrors `SQLParser.parse_column_definition`. -/
def parse_column_definition (ts : List Token) :
    Except ParseError (ColumnDef × List Token) := do
  let t := current_token ts
  let (name_tok, ts1) ← consume ts .identifier "Expected column name"
  let (dt, ts2) ← parse_data_type ts1
  return (⟨name_tok.value, dt, t.line, t.column⟩, ts2)

/-- The column-definition loop of `parse_create_table` (`while not
match(RIGHT_PAREN)`), with fuel for the iteration count. -/
def create_columns_loop : Nat → List Token → List ColumnDef →
    Except ParseError (List ColumnDef × List Token)
  | 0, ts, _ => throw ⟨"parser fuel exhausted", current_token ts, none⟩
  | fuel + 1, ts, acc =>
    if match1 ts .right_paren then return (acc, ts)
    else do
      let (col, ts1) ← parse_column_definition ts
      let acc1 := acc ++ [col]
      if match1 ts1 .comma then
        create_columns_loop fuel ts1.tail acc1
      else if match1 ts1 .right_paren then
        create_columns_loop fuel ts1 acc1
      else
        throw ⟨"Expected \x27,\x27 or \x27)\x27 in column list",
               current_token ts1, some ", or )"⟩

/-- Mirrors `SQLParser.parse_create_table`, including its explicit
at-least-one-column check. -/
def parse_create_table (ts : List Token) :
    Except ParseError (CreateTableStatement × List Token) := do
  let t0 := current_token ts
  let (_, ts1) ← consume ts .keyword "Expected CREATE"
  let t1 := current_token ts1
  if t1.type == .keyword && upper_str t1.value == "TABLE" then
    let ts2 := ts1.tail
    let (name_tok, ts3) ← consume ts2 .identifier "Expected table name"
    let (_, ts4) ← consume ts3 .left_paren "Expected \x27(\x27 after table name"
    let (columns, ts5) ← create_columns_loop (ts4.length + 1) ts4 []
    if columns.isEmpty then
      throw ⟨"Table must have at least one column", current_token ts5, none⟩
    else do
      let (_, ts6) ← consume ts5 .right_paren "Expected \x27)\x27 after column list"
      return (⟨name_tok.value, columns, t0.line, t0.column⟩, ts6)
  else
    throw ⟨"Expected TABLE after CREATE", t1, some "TABLE"⟩

/-- The explicit column-name loop of `parse_insert`. -/
def insert_columns_loop : Nat → List Token → List String →
    Except ParseError (List String × List Token)
  | 0, ts, _ => throw ⟨"parser fuel exhausted", current_token ts, none⟩
  | fuel + 1, ts, acc =>
    if match1 ts .right_paren then return (acc, ts)
    else do
      let (col_tok, ts1) ← consume ts .identifier "Expected column name"
      let acc1 := acc ++ [col_tok.value]
      if match1 ts1 .comma then
        insert_columns_loop fuel ts1.tail acc1
      else if match1 ts1 .right_paren then
        insert_columns_loop fuel ts1 acc1
      else
        throw ⟨"Expected \x27,\x27 or \x27)\x27 in column list",
               current_token ts1, some ", or )"⟩

/-- The value loop of `parse_insert` (`while not match(RIGHT_PAREN)`); note
it exits at once on a right parenthesis, leaving the row empty. -/
def insert_values_loop : Nat → List Token → List Expression →
    Except ParseError (List Expression × List Token)
  | 0, ts, _ => throw ⟨"parser fuel exhausted", current_token ts, none⟩
  | fuel + 1, ts, acc =>
    if match1 ts .right_paren then return (acc, ts)
    else do
      let (v, ts1) ← parse_literal ts
      let acc1 := acc ++ [v]
      if match1 ts1 .comma then
        insert_values_loop fuel ts1.tail acc1
      else if match1 ts1 .right_paren then
        insert_values_loop fuel ts1 acc1
      else
        throw ⟨"Expected \x27,\x27 or \x27)\x27 in value list",
               current_token ts1, some ", or )"⟩

/-- Mirrors `SQLParser.parse_insert`: a single `VALUES` tuple is parsed and
appended as the only row of `values`. -/
def parse_insert (ts : List Token) :
    Except ParseError (InsertStatement × List Token) := do
  let t0 := current_token ts
  let (_, ts1) ← consume ts .keyword "Expected INSERT"
  let t1 := current_token ts1
  if t1.type == .keyword && upper_str t1.value == "INTO" then
    let ts2 := ts1.tail
    let (name_tok, ts3) ← consume ts2 .identifier "Expected table name"
    let (columns, ts4) ←
      if match1 ts3 .left_paren then do
        let (cols, tsA) ← insert_columns_loop (ts3.tail.length + 1) ts3.tail []
        let (_, tsB) ← consume tsA .right_paren "Expected \x27)\x27 after column list"
        pure ((some cols : Option (List String)), tsB)
      else
        pure ((none : Option (List String)), ts3)
    let t2 := current_token ts4
    if t2.type == .keyword && upper_str t2.value == "VALUES" then
      let ts5 := ts4.tail
      let (_, ts6) ← consume ts5 .left_paren "Expected \x27(\x27 after VALUES"
      let (row, ts7) ← insert_values_loop (ts6.length + 1) ts6 []
      let (_, ts8) ← consume ts7 .right_paren "Expected \x27)\x27 after values"
      return (⟨name_tok.value, columns, [row], t0.line, t0.column⟩, ts8)
    else
      throw ⟨"Expected VALUES", t2, some "VALUES"⟩
  else
    throw ⟨"Expected INTO after INSERT", t1, some "INTO"⟩

/-- The select-list loop of `parse_select` (`while True`). -/
def select_list_loop : Nat → List Token → List Expression →
    Except ParseError (List Expression × List Token)
  | 0, ts, _ => throw ⟨"parser fuel exhausted", current_token ts, none⟩
  | fuel + 1, ts, acc =>
    let t := current_token ts
    if t.type == .identifier then
      let acc1 := acc ++ [Expression.identifier t.value t.line t.column]
      let ts1 := ts.tail
      if match1 ts1 .comma then
        select_list_loop fuel ts1.tail acc1
      else
        return (acc1, ts1)
    else
      throw ⟨"Expected column name in SELECT list", t, none⟩

/-- Mirrors `SQLParser.parse_select`. -/
def parse_select (ts : List Token) :
    Except ParseError (SelectStatement × List Token) := do
  let t0 := current_token ts
  let (_, ts1) ← consume ts .keyword "Expected SELECT"
  let (select_list, ts2) ← select_list_loop (ts1.length + 1) ts1 []
  let t2 := current_token ts2
  if t2.type == .keyword && upper_str t2.value == "FROM" then
    let ts3 := ts2.tail
    let (tbl_tok, ts4) ← consume ts3 .identifier "Expected table name after FROM"
    let t4 := current_token ts4
    if t4.type == .keyword && upper_str t4.value == "WHERE" then do
      let (w, ts5) ← parse_expression ts4.tail
      return (⟨select_list, tbl_tok.value, some w, t0.line, t0.column⟩, ts5)
    else
      return (⟨select_list, tbl_tok.value, none, t0.line, t0.column⟩, ts4)
  else
    throw ⟨"Expected FROM", t2, some "FROM"⟩

/-- Mirrors `SQLParser.parse_delete`. -/
def parse_delete (ts : List Token) :
    Except ParseError (DeleteStatement × List Token) := do
  let t0 := current_token ts
  let (_, ts1) ← consume ts .keyword "Expected DELETE"
  let t1 := current_token ts1
  if t1.type == .keyword && upper_str t1.value == "FROM" then
    let ts2 := ts1.tail
    let (name_tok, ts3) ← consume ts2 .identifier "Expected table name"
    let t3 := current_token ts3
    if t3.type == .keyword && upper_str t3.value == "WHERE" then do
      let (w, ts4) ← parse_expression ts3.tail
      return (⟨name_tok.value, some w, t0.line, t0.column⟩, ts4)
    else
      return (⟨name_tok.value, none, t0.line, t0.column⟩, ts3)
  else
    throw ⟨"Expected FROM after DELETE", t1, some "FROM"⟩

/-- The assignment loop of `parse_update` (`while True`). -/
def update_assignments_loop : Nat → List Token → List (String × Expression) →
    Except ParseError (List (String × Expression) × List Token)
  | 0, ts, _ => throw ⟨"parser fuel exhausted", current_token ts, none⟩
  | fuel + 1, ts, acc => do
    let (col_tok, ts1) ← consume ts .identifier "Expected column name"
    let (_, ts2) ← consume ts1 .equals "Expected \x27=\x27 after column name"
    let (v, ts3) ← parse_primary ts2
    let acc1 := acc ++ [(col_tok.value, v)]
    if match1 ts3 .comma then
      update_assignments_loop fuel ts3.tail acc1
    else
      return (acc1, ts3)

/-- Mirrors `SQLParser.parse_update`. -/
def parse_update (ts : List Token) :
    Except ParseError (UpdateStatement × List Token) := do
  let t0 := current_token ts
  let (_, ts1) ← consume ts .keyword "Expected UPDATE"
  let (name_tok, ts2) ← consume ts1 .identifier "Expected table name"
  let t2 := current_token ts2
  if t2.type == .keyword && upper_str t2.value == "SET" then
    let ts3 := ts2.tail
    let (assignments, ts4) ← update_assignments_loop (ts3.length + 1) ts3 []
    let t4 := current_token ts4
    if t4.type == .keyword && upper_str t4.value == "WHERE" then do
      let (w, ts5) ← parse_expression ts4.tail
      return (⟨name_tok.value, assignments, some w, t0.line, t0.column⟩, ts5)
    else
      return (⟨name_tok.value, assignments, none, t0.line, t0.column⟩, ts4)
  else
    throw ⟨"Expected SET after table name", t2, some "SET"⟩

/-- Mirrors `SQLParser.parse_statement`: dispatch on the first keyword. -/
def parse_statement (ts : List Token) :
    Except ParseError (Statement × List Token) :=
  let t := current_token ts
  if t.type == .keyword then
    let kw := upper_str t.value
    if kw == "CREATE" then
      (parse_create_table ts).map (fun r => (.create r.1, r.2))
    else if kw == "INSERT" then
      (parse_insert ts).map (fun r => (.insert r.1, r.2))
    else if kw == "SELECT" then
      (parse_select ts).map (fun r => (.select r.1, r.2))
    else if kw == "DELETE" then
      (parse_delete ts).map (fun r => (.delete r.1, r.2))
    else if kw == "UPDATE" then
      (parse_update ts).map (fun r => (.update r.1, r.2))
    else
      throw ⟨"Unsupported statement: " ++ kw, t, none⟩
  else
    throw ⟨"Expected statement", t, some "CREATE, INSERT, SELECT, DELETE, or UPDATE"⟩

/-- The statement loop of `SQLParser.parse` (`while not match(EOF)`); after
each statement one optional semicolon is consumed. -/
def parse_loop : Nat → List Token → List Statement →
    Except ParseError (List Statement)
  | 0, ts, _ => throw ⟨"parser fuel exhausted", current_token ts, none⟩
  | fuel + 1, ts, acc =>
    if match1 ts .eof then return acc
    else if (current_token ts).type == .error then
      throw ⟨"Lexical error: " ++ (current_token ts).value, current_token ts, none⟩
    else do
      let (st, ts1) ← parse_statement ts
      let acc1 := acc ++ [st]
      let ts2 := if match1 ts1 .semicolon then ts1.tail else ts1
      parse_loop fuel ts2 acc1

/-- Mirrors `SQLParser.parse`; the `SQLProgram` is built at position (1,1). -/
def parse (ts : List Token) : Except ParseError SQLProgram :=
  (parse_loop (ts.length + 1) ts []).map (fun sts => ⟨sts, 1, 1⟩)

/-- The full pipeline `SQLParser(SQLLexer(source).tokenize()).parse()`: a
lexical error aborts before parsing, as the raised `LexerError` does. -/
def parse_sql (source : String) : Except (Sum LexerError ParseError) SQLProgram :=
  match tokenize source with
  | (_, some e) => .error (.inl e)
  | (toks, none) =>
    match parse toks with
    | .ok p => .ok p
    | .error pe => .error (.inr pe)

/-! ## Catalog (`catalog.py`)

The Python `dict` underlying `Catalog._tables` is insertion ordered with
unique keys; it is modelled as an association list, with lookup returning
the first matching entry and insertion appending at the end. -/

/-- Mirrors the `ColumnInfo` dataclass. -/
structure ColumnInfo where
  name : String
  data_type : String
  size : Option Nat
  is_nullable : Bool
deriving DecidableEq, Repr

/-- Mirrors the `TableInfo` dataclass. -/
structure TableInfo where
  name : String
  columns : List ColumnInfo
deriving DecidableEq, Repr

/-- Mirrors `TableInfo.get_column` (case-insensitive search). -/
def TableInfo.get_column (ti : TableInfo) (column_name : String) : Option ColumnInfo :=
  ti.columns.find? (fun col => upper_str col.name == upper_str column_name)

/-- The `Catalog._tables` mapping from upper-cased table name to `TableInfo`. -/
abbrev Catalog := List (String × TableInfo)

/-- Model of `self._tables.get(key)` / `key in self._tables`. -/
def tables_get (cat : Catalog) (key : String) : Option TableInfo :=
  (cat.find? (fun p => p.1 == key)).map (fun p => p.2)

/-- Mirrors `Catalog.create_table`: fails if the upper-cased key exists,
otherwise stores `TableInfo(table_name, columns)` under the key. -/
def create_table (cat : Catalog) (table_name : String) (columns : List ColumnInfo) :
    Bool × Catalog :=
  let key := upper_str table_name
  if (tables_get cat key).isSome then (false, cat)
  else (true, cat ++ [(key, ⟨table_name, columns⟩)])

/-- Mirrors `Catalog.drop_table`: fails if the upper-cased key is absent,
otherwise deletes that entry. -/
def drop_table (cat : Catalog) (table_name : String) : Bool × Catalog :=
  let key := upper_str table_name
  if (tables_get cat key).isSome then (true, cat.eraseP (fun p => p.1 == key))
  else (false, cat)

/-- Mirrors `Catalog.get_table_info`. -/
def get_table_info (cat : Catalog) (table_name : String) : Option TableInfo :=
  tables_get cat (upper_str table_name)

/-- Mirrors `Catalog.table_exists`. -/
def table_exists (cat : Catalog) (table_name : String) : Bool :=
  (tables_get cat (upper_str table_name)).isSome

/-- The scan of `Catalog.validate_columns` over the requested column names:
the first name whose upper-casing is not among the table columns is
reported. -/
def validate_columns_go (table_name : String) (table_columns : List String) :
    List String → Bool × String
  | [] => (true, "")
  | cn :: rest =>
    if table_columns.contains (upper_str cn) then
      validate_columns_go table_name table_columns rest
    else
      (false, "Column \x27" ++ cn ++ "\x27 does not exist in table \x27" ++
              table_name ++ "\x27")

/-- Mirrors `Catalog.validate_columns`. -/
def validate_columns (cat : Catalog) (table_name : String)
    (column_names : List String) : Bool × String :=
  match get_table_info cat table_name with
  | none => (false, "Table \x27" ++ table_name ++ "\x27 does not exist")
  | some ti =>
    validate_columns_go table_name (ti.columns.map (fun col => upper_str col.name))
      column_names

/-- One column record of the serialized form emitted by `Catalog.to_dict`. -/
structure ColumnRec where
  name : String
  data_type : String
  size : Option Nat
  is_nullable : Bool
deriving DecidableEq, Repr

/-- One table record of the serialized form. -/
structure TableRec where
  name : String
  columns : List ColumnRec
deriving DecidableEq, Repr

/-- The serialized catalog: upper-cased table name to table record. -/
abbrev CatalogDict := List (String × TableRec)

/-- The per-column record built inside `Catalog.to_dict`. -/
def column_to_rec (col : ColumnInfo) : ColumnRec :=
  ⟨col.name, col.data_type, col.size, col.is_nullable⟩

/-- Mirrors `Catalog.to_dict`. -/
def to_dict (cat : Catalog) : CatalogDict :=
  cat.map (fun p => (p.1, ⟨p.2.name, p.2.columns.map column_to_rec⟩))

/-- The `ColumnInfo` rebuilt inside `Catalog.from_dict` (`size` and
`is_nullable` are read with `.get`, whose defaults never fire on records
produced by `to_dict`, where both keys are always present). -/
def rec_to_column (r : ColumnRec) : ColumnInfo :=
  ⟨r.name, r.data_type, r.size, r.is_nullable⟩

/-- Mirrors `Catalog.from_dict` (the previous contents are cleared and every
entry of the record is stored back under its key, in order). -/
def from_dict (data : CatalogDict) : Catalog :=
  data.map (fun p => (p.1, ⟨p.2.name, p.2.columns.map rec_to_column⟩))

/-! ## Groundwork for the theorems -/

/-- Number of error-typed tokens in a token list. -/
def count_error_tokens (toks : List Token) : Nat :=
  (toks.filter (fun t => t.type == .error)).length

/-- All identifier and table names stored in an expression. -/
def expr_names : Expression → List String
  | .identifier n _ _ => [n]
  | .literal _ _ _ _ => []
  | .binary l _ r _ _ => expr_names l ++ expr_names r

/-- Names of an optional where-clause. -/
def opt_expr_names : Option Expression → List String
  | none => []
  | some e => expr_names e

/-- All identifier, column and table names stored in a statement node. -/
def statement_names : Statement → List String
  | .create s => s.table_name :: s.columns.map (fun c => c.name)
  | .insert s =>
      s.table_name :: (s.columns.getD [] ++ s.values.flatten.flatMap expr_names)
  | .select s =>
      s.from_table :: (s.select_list.flatMap expr_names ++ opt_expr_names s.where_clause)
  | .delete s => s.table_name :: opt_expr_names s.where_clause
  | .update s =>
      s.table_name :: (s.assignments.flatMap (fun a => a.1 :: expr_names a.2) ++
        opt_expr_names s.where_clause)

/-- All names stored in a parsed program. -/
def program_names (p : SQLProgram) : List String :=
  p.statements.flatMap statement_names

/-- A string with no lower-case ASCII letter. -/
def no_lower (s : String) : Bool := s.data.all (fun c => !(is_lower_ascii c))

/-- Ok-characterization of bind in the `Except` monad. -/
theorem exbind_ok {ε α β : Type} (x : Except ε α) (f : α → Except ε β) (b : β) :
    (x >>= f) = Except.ok b ↔ ∃ a, x = Except.ok a ∧ f a = Except.ok b := by
  cases x <;> simp [Bind.bind, Except.bind]

/-- Ok-characterization of map in the `Except` monad. -/
theorem exmap_ok {ε α β : Type} (x : Except ε α) (f : α → β) (b : β) :
    (x.map f) = Except.ok b ↔ ∃ a, x = Except.ok a ∧ f a = b := by
  cases x <;> simp [Except.map]

/-- Upper-casing a character never yields a lower-case ASCII letter. -/
theorem is_lower_upper_char (c : Char) : is_lower_ascii (upper_char c) = false := by
  unfold upper_char
  by_cases h : is_lower_ascii c = true
  · simp only [h, if_true]
    unfold is_lower_ascii at h ⊢
    simp only [Bool.and_eq_true, decide_eq_true_eq] at h
    have hv : (c.toNat - 32).isValidChar := Or.inl (by omega)
    have ht : (Char.ofNat (c.toNat - 32)).toNat = c.toNat - 32 := by
      simp only [Char.ofNat, hv, dif_pos]
      rfl
    rw [ht]
    simp only [Bool.and_eq_false_iff, decide_eq_false_iff_not]
    omega
  · simp only [h, if_false]
    exact Bool.not_eq_true _ ▸ h

/-- Upper-cased strings contain no lower-case ASCII letter. -/
theorem no_lower_upper_str (s : String) : no_lower (upper_str s) = true := by
  unfold no_lower upper_str
  simp only [List.all_eq_true, List.mem_map]
  rintro c ⟨c0, _, rfl⟩
  simp [is_lower_upper_char]

/-! ### Catalog theorems -/

/-- C7: a `create_table` whose upper-cased key is taken fails and returns
the catalog unchanged, and a `drop_table` whose upper-cased key is absent
fails and returns the catalog unchanged. -/
theorem C7_catalog_failures_are_noops :
    (∀ (cat : Catalog) (name : String) (cols : List ColumnInfo),
       (tables_get cat (upper_str name)).isSome = true →
       create_table cat name cols = (false, cat)) ∧
    (∀ (cat : Catalog) (name : String),
       tables_get cat (upper_str name) = none →
       drop_table cat name = (false, cat)) := by
  constructor
  · intro cat name cols h
    unfold create_table
    simp [h]
  · intro cat name h
    unfold drop_table
    simp [h]

/-- C7 witness: both failure cases at a concrete catalog. -/
theorem C7_catalog_failures_are_noops_witness :
    create_table [("T", ⟨"t", []⟩)] "t" [] = (false, [("T", ⟨"t", []⟩)]) ∧
    drop_table ([] : Catalog) "t" = (false, []) :=
  ⟨C7_catalog_failures_are_noops.1 [("T", ⟨"t", []⟩)] "t" [] (by decide),
   C7_catalog_failures_are_noops.2 [] "t" (by decide)⟩

/-- Scan of `validate_columns` expressed through the first missing column. -/
theorem validate_columns_go_spec (t : String) (tcols : List String) :
    ∀ cols : List String,
      validate_columns_go t tcols cols =
        match cols.find? (fun cn => !(tcols.contains (upper_str cn))) with
        | some cn =>
          (false, "Column \x27" ++ cn ++ "\x27 does not exist in table \x27" ++ t ++ "\x27")
        | none => (true, "")
  | [] => by simp [validate_columns_go]
  | cn :: rest => by
    unfold validate_columns_go
    by_cases hm : upper_str cn ∈ tcols
    · simpa [hm, List.find?] using validate_columns_go_spec t tcols rest
    · simp [hm, List.find?]

/-- C8: `validate_columns` reports a table-not-found error naming the table
when no table matches case-insensitively; otherwise it fails naming exactly
the first requested column (in list order) whose upper-casing is not a
column of the table, and succeeds when there is no such column. -/
theorem C8_validate_columns_first_missing :
    (∀ (cat : Catalog) (t : String) (cols : List String),
       get_table_info cat t = none →
       validate_columns cat t cols =
         (false, "Table \x27" ++ t ++ "\x27 does not exist")) ∧
    (∀ (cat : Catalog) (t : String) (cols : List String) (ti : TableInfo),
       get_table_info cat t = some ti →
       validate_columns cat t cols =
         match cols.find?
             (fun cn => !((ti.columns.map (fun col => upper_str col.name)).contains
                           (upper_str cn))) with
         | some cn =>
           (false, "Column \x27" ++ cn ++ "\x27 does not exist in table \x27" ++ t ++ "\x27")
         | none => (true, "")) := by
  constructor
  · intro cat t cols h
    unfold validate_columns
    rw [h]
  · intro cat t cols ti h
    unfold validate_columns
    rw [h]
    exact validate_columns_go_spec t (ti.columns.map (fun col => upper_str col.name)) cols

/-- C8 witness: a missing table, a first missing column, and a success, on a
concrete catalog. -/
theorem C8_validate_columns_first_missing_witness :
    validate_columns [] "t" [] = (false, "Table \x27t\x27 does not exist") ∧
    validate_columns [("T", ⟨"t", [⟨"id", "INT", none, true⟩]⟩)] "t" ["bad", "worse"] =
      (false, "Column \x27bad\x27 does not exist in table \x27t\x27") ∧
    validate_columns [("T", ⟨"t", [⟨"id", "INT", none, true⟩]⟩)] "t" ["ID"] =
      (true, "") := by
  refine ⟨C8_validate_columns_first_missing.1 [] "t" [] (by decide), ?_, ?_⟩
  · rw [C8_validate_columns_first_missing.2 [("T", ⟨"t", [⟨"id", "INT", none, true⟩]⟩)]
      "t" ["bad", "worse"] ⟨"t", [⟨"id", "INT", none, true⟩]⟩ (by decide)]
    decide
  · rw [C8_validate_columns_first_missing.2 [("T", ⟨"t", [⟨"id", "INT", none, true⟩]⟩)]
      "t" ["ID"] ⟨"t", [⟨"id", "INT", none, true⟩]⟩ (by decide)]
    decide

/-- Round trip of one column through the serialized record. -/
theorem rec_to_column_column_to_rec (c : ColumnInfo) :
    rec_to_column (column_to_rec c) = c := rfl

/-- Round trip of a column list through the serialized record. -/
theorem columns_roundtrip (cols : List ColumnInfo) :
    (cols.map column_to_rec).map rec_to_column = cols := by
  induction cols with
  | nil => rfl
  | cons c rest ih => simp [ih, rec_to_column_column_to_rec]

/-- C9: importing the exported structured record reproduces the catalog
exactly: same keys, same stored display names, same column order, identical
per-column metadata. -/
theorem C9_catalog_roundtrip (cat : Catalog) : from_dict (to_dict cat) = cat := by
  induction cat with
  | nil => rfl
  | cons p rest ih =>
    obtain ⟨k, nm, cols⟩ := p
    simp only [to_dict, from_dict, List.map_cons, List.cons.injEq]
    constructor
    · have h2 := columns_roundtrip cols
      rw [List.map_map] at h2
      simp [h2]
    · exact ih

/-! ### Lexer and parser claim theorems (concrete evaluations) -/

/-- C1: the pipeline rejects every UPDATE statement, because `KEYWORDS` in
`lexer.py` lacks UPDATE and SET, so `UPDATE` reaches the parser as an
identifier token and statement dispatch fails with "Expected statement";
the update production itself succeeds when handed the keyword tokens the
parser expects, showing the lexer keyword set is the slip. -/
theorem C1_update_pipeline_rejected :
    parse_sql "UPDATE student SET age = 21" =
      .error (.inr ⟨"Expected statement", ⟨.identifier, "UPDATE", 1, 1⟩,
                    some "CREATE, INSERT, SELECT, DELETE, or UPDATE"⟩) ∧
    parse_update
      [⟨.keyword, "UPDATE", 1, 1⟩, ⟨.identifier, "STUDENT", 1, 8⟩,
       ⟨.keyword, "SET", 1, 16⟩, ⟨.identifier, "AGE", 1, 20⟩,
       ⟨.equals, "=", 1, 24⟩, ⟨.integer, "21", 1, 26⟩, ⟨.eof, "", 1, 28⟩] =
      .ok (⟨"STUDENT", [("AGE", .literal (.intVal 21) "INT" 1 26)], none, 1, 1⟩,
           [⟨.eof, "", 1, 28⟩]) :=
  ⟨rfl, rfl⟩

/-- C2: `tokenize` classifies the runs `update` and `set` as identifier
tokens, not keyword tokens, because `SQLLexer.KEYWORDS` does not contain
UPDATE or SET; the claimed keyword set (which includes both) disagrees with
the code on exactly these lexemes. -/
theorem C2_update_set_lex_as_identifiers :
    tokenize "update" =
      ([⟨.identifier, "UPDATE", 1, 1⟩, ⟨.eof, "", 1, 7⟩], none) ∧
    tokenize "set" =
      ([⟨.identifier, "SET", 1, 1⟩, ⟨.eof, "", 1, 4⟩], none) ∧
    ¬ "UPDATE" ∈ KEYWORDS ∧ ¬ "SET" ∈ KEYWORDS :=
  ⟨rfl, rfl, by decide, by decide⟩

/-- C3 counterexample: a table written `Student` is stored as `STUDENT` in
the AST (the lexer upper-cases identifier lexemes), so source casing is not
preserved. -/
theorem C3_source_casing_not_preserved :
    parse_sql "CREATE TABLE Student (id INT)" =
      .ok ⟨[.create ⟨"STUDENT", [⟨"ID", ⟨"INT", none, 1, 26⟩, 1, 23⟩], 1, 1⟩], 1, 1⟩ ∧
    "STUDENT" ≠ "Student" :=
  ⟨rfl, by decide⟩

/-- C4 counterexample: an unterminated string appends TWO error tokens (the
inner handler of the string branch appends one and the outer handler of
`tokenize` appends another), not exactly one. -/
theorem C4_unterminated_string_two_error_tokens :
    tokenize "\x27abc" =
      ([⟨.error, "Unterminated string literal", 1, 1⟩,
        ⟨.error, "Unterminated string literal", 1, 1⟩],
       some ⟨"Unterminated string literal", 1, 1⟩) ∧
    count_error_tokens (tokenize "\x27abc").1 = 2 ∧ (2 : Nat) ≠ 1 :=
  ⟨rfl, rfl, by decide⟩

/-- C5 counterexample: `INSERT INTO t VALUES ()` is accepted, producing an
`InsertStatement` whose single value row is empty, instead of being
rejected with a `ParseError`. -/
theorem C5_empty_values_tuple_accepted :
    parse_sql "INSERT INTO t VALUES ()" =
      .ok ⟨[.insert ⟨"T", none, [[]], 1, 1⟩], 1, 1⟩ :=
  rfl

/-- C10: whenever the parser is about to parse a statement and sees a
semicolon (an input of just `;`, or a second consecutive semicolon after a
statement), it raises "Expected statement" instead of skipping it: the top
loop consumes at most one semicolon, and only right after a statement. -/
theorem C10_semicolon_only_after_statement :
    (∀ (v : String) (l c : Nat) (rest : List Token),
       parse (⟨.semicolon, v, l, c⟩ :: rest) =
         .error ⟨"Expected statement", ⟨.semicolon, v, l, c⟩,
                 some "CREATE, INSERT, SELECT, DELETE, or UPDATE"⟩) ∧
    parse_sql ";" =
      .error (.inr ⟨"Expected statement", ⟨.semicolon, ";", 1, 1⟩,
                    some "CREATE, INSERT, SELECT, DELETE, or UPDATE"⟩) ∧
    parse_sql "DELETE FROM t;;DELETE FROM t" =
      .error (.inr ⟨"Expected statement", ⟨.semicolon, ";", 1, 15⟩,
                    some "CREATE, INSERT, SELECT, DELETE, or UPDATE"⟩) := by
  refine ⟨?_, rfl, rfl⟩
  intro v l c rest
  simp [parse, parse_loop, parse_statement, match1, current_token,
        Except.map, Bind.bind, Except.bind]

/-- C5 amended: every `InsertStatement` produced by `parse_insert` carries
exactly one value row (the single parsed `VALUES` tuple), which may be
empty, since the value loop exits at once on a right parenthesis. -/
theorem C5_insert_exactly_one_row :
    ∀ (ts : List Token) (st : InsertStatement) (rest : List Token),
      parse_insert ts = .ok (st, rest) → ∃ row, st.values = [row] := by
  intro ts st rest h
  unfold parse_insert at h
  simp only [Bind.bind, Except.bind, pure, Except.pure] at h
  repeat' split at h
  all_goals simp_all
  all_goals obtain ⟨h1, h2⟩ := h
  all_goals subst h1
  all_goals exact ⟨_, rfl⟩

/-- C5 witness: the single-row conclusion at the concrete empty tuple. -/
theorem C5_insert_exactly_one_row_witness :
    ∃ row, (⟨"T", none, [[]], 1, 1⟩ : InsertStatement).values = [row] :=
  C5_insert_exactly_one_row
    [⟨.keyword, "INSERT", 1, 1⟩, ⟨.keyword, "INTO", 1, 8⟩,
     ⟨.identifier, "T", 1, 13⟩, ⟨.keyword, "VALUES", 1, 15⟩,
     ⟨.left_paren, "(", 1, 22⟩, ⟨.right_paren, ")", 1, 23⟩, ⟨.eof, "", 1, 24⟩]
    ⟨"T", none, [[]], 1, 1⟩ [⟨.eof, "", 1, 24⟩] (by rfl)

/-- Shape of a successful `parse_create_table`: the explicit emptiness check
right before the closing parenthesis guarantees at least one column. -/
theorem parse_create_table_nonempty :
    ∀ (ts : List Token) (ct : CreateTableStatement) (rest : List Token),
      parse_create_table ts = .ok (ct, rest) → ct.columns ≠ [] := by
  intro ts ct rest h
  unfold parse_create_table at h
  simp only [Bind.bind, Except.bind, pure, Except.pure] at h
  repeat' split at h
  all_goals simp_all
  rename_i hne heqrp
  obtain ⟨h1, h2⟩ := h
  subst h1
  exact hne

/-- Statement dispatch preserves the nonempty-columns fact for CREATE. -/
theorem parse_statement_create_nonempty :
    ∀ (ts : List Token) (st : Statement) (rest : List Token),
      parse_statement ts = .ok (st, rest) →
      ∀ ct, st = Statement.create ct → ct.columns ≠ [] := by
  intro ts st rest h ct hst
  unfold parse_statement at h
  simp only [Except.map] at h
  repeat' split at h
  all_goals simp_all
  rename_i x v hkw hcre heq
  obtain ⟨h1, h2⟩ := h
  exact h1 ▸ parse_create_table_nonempty ts v.1 v.2 heq

/-- Lifts a per-statement property through the statement loop of `parse`,
threading an invariant on the remaining tokens. -/
theorem parse_loop_all (Inv : List Token → Prop) (Pred : Statement → Prop)
    (hstep : ∀ (ts : List Token) (st : Statement) (rest : List Token),
       Inv ts → parse_statement ts = .ok (st, rest) → Pred st ∧ Inv rest)
    (htail : ∀ ts : List Token, Inv ts → Inv ts.tail) :
    ∀ (fuel : Nat) (ts : List Token) (acc : List Statement),
      Inv ts → (∀ st ∈ acc, Pred st) →
      ∀ sts, parse_loop fuel ts acc = .ok sts → ∀ st ∈ sts, Pred st := by
  intro fuel
  induction fuel with
  | zero =>
    intro ts acc _ _ sts h
    simp [parse_loop, throw, throwThe, MonadExcept.throw] at h
  | succ n ih =>
    intro ts acc hinv hacc sts h
    unfold parse_loop at h
    split at h
    · simp only [pure, Except.pure, Except.ok.injEq] at h
      subst h
      exact hacc
    · split at h
      · simp [throw, throwThe, MonadExcept.throw] at h
      · simp only [Bind.bind, Except.bind] at h
        split at h
        · simp_all
        case _ v heq =>
          obtain ⟨hPred, hInvRest⟩ := hstep ts v.1 v.2 hinv heq
          refine ih _ _ ?_ ?_ sts h
          · by_cases hsc : match1 v.2 .semicolon = true
            · simpa [hsc] using htail _ hInvRest
            · simpa [hsc] using hInvRest
          · intro st hst
            rcases List.mem_append.mp hst with hmem | hmem
            · exact hacc st hmem
            · simpa [List.mem_singleton.mp hmem] using hPred

/-- C6: `CREATE TABLE t ()` raises the dedicated parse error, and every
`CreateTableStatement` inside any successfully parsed program has at least
one column. -/
theorem C6_create_table_requires_columns :
    parse_sql "CREATE TABLE t ()" =
      .error (.inr ⟨"Table must have at least one column",
                    ⟨.right_paren, ")", 1, 17⟩, none⟩) ∧
    (∀ (ts : List Token) (p : SQLProgram), parse ts = .ok p →
       ∀ st ∈ p.statements, ∀ ct, st = Statement.create ct → ct.columns ≠ []) := by
  refine ⟨rfl, ?_⟩
  intro ts p h st hmem ct hst
  unfold parse at h
  rw [exmap_ok] at h
  obtain ⟨sts, hloop, hp⟩ := h
  subst hp
  exact parse_loop_all (fun _ => True)
    (fun st => ∀ ct, st = Statement.create ct → ct.columns ≠ [])
    (fun ts' st' rest' _ hps =>
      ⟨parse_statement_create_nonempty ts' st' rest' hps, trivial⟩)
    (fun _ _ => trivial)
    (ts.length + 1) ts [] trivial (by simp) sts hloop st hmem ct hst

/-- C6 witness: the nonempty conclusion at a concrete one-column table. -/
theorem C6_create_table_requires_columns_witness :
    (⟨"T", [⟨"ID", ⟨"INT", none, 1, 20⟩, 1, 17⟩], 1, 1⟩ :
      CreateTableStatement).columns ≠ [] :=
  C6_create_table_requires_columns.2
    [⟨.keyword, "CREATE", 1, 1⟩, ⟨.keyword, "TABLE", 1, 8⟩,
     ⟨.identifier, "T", 1, 14⟩, ⟨.left_paren, "(", 1, 16⟩,
     ⟨.identifier, "ID", 1, 17⟩, ⟨.keyword, "INT", 1, 20⟩,
     ⟨.right_paren, ")", 1, 23⟩, ⟨.eof, "", 1, 24⟩]
    ⟨[.create ⟨"T", [⟨"ID", ⟨"INT", none, 1, 20⟩, 1, 17⟩], 1, 1⟩], 1, 1⟩
    (by rfl)
    (.create ⟨"T", [⟨"ID", ⟨"INT", none, 1, 20⟩, 1, 17⟩], 1, 1⟩)
    (by simp)
    ⟨"T", [⟨"ID", ⟨"INT", none, 1, 20⟩, 1, 17⟩], 1, 1⟩
    rfl

/-- Error-characterization of map in the `Except` monad. -/
theorem exmap_error {ε α β : Type} (x : Except ε α) (f : α → β) (e : ε) :
    (x.map f) = .error e ↔ x = .error e := by
  cases x <;> simp [Except.map]

/-- Appending one token changes the error count by its error-ness. -/
theorem count_error_append (acc : List Token) (t : Token) :
    count_error_tokens (acc ++ [t]) =
      count_error_tokens acc + (if t.type == .error then 1 else 0) := by
  simp only [count_error_tokens, List.filter_append, List.length_append]
  split <;> simp_all

/-- The keyword-or-identifier decision never yields the error type. -/
theorem kw_id_ne_error (p : Prop) [Decidable p] :
    ((if p then TokenType.keyword else TokenType.identifier) == TokenType.error)
      = false := by
  split <;> rfl

/-- Operator tokens are never error tokens. -/
theorem operator_type_ne_error (s : String) (tt : TokenType)
    (h : operator_type s = some tt) : (tt == TokenType.error) = false := by
  unfold operator_type at h
  repeat' split at h
  all_goals cases h
  all_goals rfl

/-- Delimiter tokens are never error tokens. -/
theorem delimiter_type_ne_error (c : Char) (tt : TokenType)
    (h : delimiter_type c = some tt) : (tt == TokenType.error) = false := by
  unfold delimiter_type at h
  repeat' split at h
  all_goals cases h
  all_goals rfl

/-- Every error of the string-body scan is the unterminated-string error
anchored at the opening quote. -/
theorem read_string_core_error :
    ∀ (n : Nat) (cs : List Char), cs.length ≤ n →
      ∀ (q : Char) (sl sc l c : Nat) (e : LexerError),
        read_string_core q sl sc cs l c = .error e →
        e = ⟨"Unterminated string literal", sl, sc⟩ := by
  intro n
  induction n with
  | zero =>
    intro cs hle q sl sc l c e h
    have hnil : cs = [] := List.length_eq_zero.mp (Nat.le_zero.mp hle)
    subst hnil
    simp only [read_string_core, Except.error.injEq] at h
    exact h.symm
  | succ n ih =>
    intro cs hle q sl sc l c e h
    rcases cs with _ | ⟨ch, rest⟩
    · simp only [read_string_core, Except.error.injEq] at h
      exact h.symm
    · unfold read_string_core at h
      simp only [] at h
      repeat' split at h
      all_goals first
        | (rw [exmap_error] at h;
           refine ih _ ?_ q sl sc _ _ e h;
           simp only [List.length_cons] at hle;
           omega)
        | (simp only [Except.error.injEq] at h; exact h.symm)
        | simp at h

/-- Every error raised by `read_string` is the unterminated-string error
anchored at its entry position. -/
theorem read_string_error (cs : List Char) (l c : Nat) (e : LexerError)
    (h : read_string cs l c = .error e) :
    e = ⟨"Unterminated string literal", l, c⟩ := by
  unfold read_string at h
  rcases cs with _ | ⟨q, rest⟩
  · simp only [Except.error.injEq] at h
    exact h.symm
  · simp only [] at h
    rw [exmap_error] at h
    exact read_string_core_error rest.length rest le_rfl q l c _ _ e h

/-- Two strings differing at some index differ. -/
theorem string_ne_of_getElem (s t : String) (i : Nat)
    (h : s.data[i]? ≠ t.data[i]?) : ¬ s = t :=
  fun he => h (he ▸ rfl)

/-- A string starting with a prefix that differs from
"Unterminated string literal" at index `i` is not that string. -/
theorem prefixed_ne_unterminated (p mid s : String) (i : Nat)
    (hi : i < p.data.length)
    (hne : p.data[i]? ≠ ("Unterminated string literal" : String).data[i]?) :
    ¬ (p ++ mid ++ s = "Unterminated string literal") := by
  intro he
  have h2 := congrArg (fun u : String => u.data[i]?) he
  simp only [String.data_append] at h2
  rw [List.getElem?_append_left (by rw [List.length_append]; omega),
      List.getElem?_append_left hi] at h2
  exact hne h2

/-- The unknown-operator message is not the unterminated-string message. -/
theorem unknown_operator_ne (op : String) :
    ¬ ("Unknown operator \x27" ++ op ++ "\x27" =
        ("Unterminated string literal" : String)) :=
  prefixed_ne_unterminated _ _ _ 2 (by decide) (by decide)

/-- The unexpected-character message is not the unterminated-string
message. -/
theorem unexpected_char_ne (w : String) :
    ¬ ("Unexpected character \x27" ++ w ++ "\x27" =
        ("Unterminated string literal" : String)) :=
  prefixed_ne_unterminated _ _ _ 2 (by decide) (by decide)

/-- The token-count invariant of the scanning loop: when the loop stops
without an error no error token was accumulated, and when it stops with one,
exactly one error token was appended precisely for an unterminated string
(by the inner handler), none for the other error kinds. -/
theorem lex_loop_error_count :
    ∀ (fuel : Nat) (cs : List Char) (l c : Nat) (acc : List Token),
      count_error_tokens acc = 0 →
      ∀ (toks : List Token) (l2 c2 : Nat) (oe : Option LexerError),
        lex_loop fuel cs l c acc = (toks, l2, c2, oe) →
        (oe = none → count_error_tokens toks = 0) ∧
        (∀ e, oe = some e → count_error_tokens toks =
           (if e.message = "Unterminated string literal" then 1 else 0)) := by
  intro fuel
  induction fuel with
  | zero =>
    intro cs l c acc hacc toks l2 c2 oe h
    simp only [lex_loop, Prod.mk.injEq] at h
    obtain ⟨rfl, -, -, rfl⟩ := h
    refine ⟨fun _ => hacc, ?_⟩
    rintro e he
    injection he with he
    subst he
    rw [if_neg (by decide)]
    exact hacc
  | succ n ih =>
    intro cs l c acc hacc toks l2 c2 oe h
    unfold lex_loop at h
    simp only [] at h
    repeat' split at h
    all_goals try (simp only [Prod.mk.injEq] at h)
    -- the surviving branches are: recursion with the accumulator unchanged
    -- (comments), recursion with one non-error token appended, the two
    -- no-error exits, the unterminated-string exit (error token appended by
    -- the inner handler), and the three other error exits
    all_goals first
      | exact ih _ _ _ _ hacc _ _ _ _ h
      | (refine ih _ _ _ _ ?_ _ _ _ _ h;
         rw [count_error_append, hacc];
         first
           | rfl
           | (rw [operator_type_ne_error _ _ (by assumption)]; rfl)
           | (rw [delimiter_type_ne_error _ _ (by assumption)]; rfl))
      | (rename_i e0 heq;
         obtain ⟨rfl, -, -, rfl⟩ := h;
         constructor;
         (intro hne; simp at hne);
         intro e he;
         injection he with he;
         subst he;
         rw [count_error_append, hacc, read_string_error _ _ _ _ heq];
         simp)
      | (obtain ⟨rfl, -, -, rfl⟩ := h;
         constructor;
         (intro hne; exact hacc);
         intro e he;
         first
           | (injection he with he;
              subst he;
              rw [hacc];
              first
                | decide
                | simp [unknown_operator_ne, unexpected_char_ne])
           | simp at he)

/-- C4 amended: when `tokenize` fails it has appended error tokens carrying
the message and position of the raised error: two of them (one from the
inner string handler, one from the outer handler) when the error is an
unterminated string, and exactly one for every other lexical error; the
final token is always the outer error token. -/
theorem C4_error_token_count :
    ∀ (s : String) (toks : List Token) (e : LexerError),
      tokenize s = (toks, some e) →
      count_error_tokens toks =
        (if e.message = "Unterminated string literal" then 2 else 1) ∧
      toks.getLast? = some ⟨.error, e.message, e.line, e.column⟩ := by
  intro s toks e h
  unfold tokenize at h
  rcases hle : lex_loop (s.length + 1) s.data 1 1 [] with ⟨toks0, l0, c0, oe0⟩
  rw [hle] at h
  rcases oe0 with _ | e0
  · simp at h
  · simp only [Prod.mk.injEq] at h
    obtain ⟨rfl, he⟩ := h
    injection he with he
    subst he
    have hcount := (lex_loop_error_count _ _ _ _ [] rfl _ _ _ _ hle).2 _ rfl
    constructor
    · rw [count_error_append, hcount]
      by_cases hm : e0.message = "Unterminated string literal"
      · simp [hm]
      · simp [hm]
    · exact List.getLast?_concat _

/-- C4 amended witness: the two-token count at a concrete unterminated
string input. -/
theorem C4_error_token_count_witness :
    count_error_tokens
        [⟨.error, "Unterminated string literal", 1, 1⟩,
         ⟨.error, "Unterminated string literal", 1, 1⟩] =
      (if ("Unterminated string literal" : String) = "Unterminated string literal"
       then 2 else 1) ∧
    ([⟨.error, "Unterminated string literal", 1, 1⟩,
      ⟨.error, "Unterminated string literal", 1, 1⟩] : List Token).getLast? =
      some ⟨.error, "Unterminated string literal", 1, 1⟩ :=
  C4_error_token_count "\x27abc"
    [⟨.error, "Unterminated string literal", 1, 1⟩,
     ⟨.error, "Unterminated string literal", 1, 1⟩]
    ⟨"Unterminated string literal", 1, 1⟩ (by rfl)

/-! ### Upper-cased names machinery (claim C3) -/

/-- Identifier tokens carry no lower-case ASCII letter (their value was
upper-cased by the lexer). -/
def tok_ok (t : Token) : Prop := t.type = .identifier → no_lower t.value = true

/-- All tokens of a list satisfy `tok_ok`. -/
def ts_ok (ts : List Token) : Prop := ∀ t ∈ ts, tok_ok t

/-- The tail of an invariant-satisfying token list satisfies it. -/
theorem ts_ok_tail {ts : List Token} (h : ts_ok ts) : ts_ok ts.tail := by
  intro t ht
  exact h t (List.mem_of_mem_tail ht)

/-- The current token of an invariant-satisfying suffix satisfies `tok_ok`
(the synthetic EOF token of the empty suffix is not an identifier). -/
theorem current_token_ok {ts : List Token} (h : ts_ok ts) :
    tok_ok (current_token ts) := by
  cases ts with
  | nil => intro habs; cases habs
  | cons t rest => exact h t (List.mem_cons_self t rest)

/-- Appending a good token preserves the invariant. -/
theorem ts_ok_append {acc : List Token} {t : Token}
    (h1 : ts_ok acc) (h2 : tok_ok t) : ts_ok (acc ++ [t]) := by
  intro x hx
  rcases List.mem_append.mp hx with hm | hm
  · exact h1 x hm
  · rw [List.mem_singleton.mp hm]
    exact h2

/-- Operator tokens are never identifier tokens. -/
theorem operator_type_ne_identifier (s : String) (tt : TokenType)
    (h : operator_type s = some tt) : tt ≠ .identifier := by
  unfold operator_type at h
  repeat' split at h
  all_goals cases h
  all_goals simp

/-- Delimiter tokens are never identifier tokens. -/
theorem delimiter_type_ne_identifier (c : Char) (tt : TokenType)
    (h : delimiter_type c = some tt) : tt ≠ .identifier := by
  unfold delimiter_type at h
  repeat' split at h
  all_goals cases h
  all_goals simp

/-- Every token accumulated by the scanning loop keeps `tok_ok`: the only
identifier tokens it appends carry upper-cased lexemes. -/
theorem lex_loop_ts_ok :
    ∀ (fuel : Nat) (cs : List Char) (l c : Nat) (acc : List Token),
      ts_ok acc → ts_ok (lex_loop fuel cs l c acc).1 := by
  intro fuel
  induction fuel with
  | zero =>
    intro cs l c acc hacc
    exact hacc
  | succ n ih =>
    intro cs l c acc hacc
    unfold lex_loop
    simp only []
    repeat' split
    all_goals first
      | exact hacc
      | exact ih _ _ _ _ hacc
      | (apply ih;
         refine ts_ok_append hacc ?_;
         first
           | (intro habs; exact no_lower_upper_str _)
           | (intro habs; exact absurd habs (operator_type_ne_identifier _ _ (by assumption)))
           | (intro habs; exact absurd habs (delimiter_type_ne_identifier _ _ (by assumption)))
           | (intro habs; cases habs))
      | (refine ts_ok_append hacc ?_; intro habs; cases habs)

/-- All tokens produced by `tokenize` satisfy the invariant. -/
theorem tokenize_ts_ok (s : String) : ts_ok (tokenize s).1 := by
  unfold tokenize
  rcases hle : lex_loop (s.length + 1) s.data 1 1 [] with ⟨toks0, l0, c0, oe0⟩
  have h0 : ts_ok toks0 := by
    have := lex_loop_ts_ok (s.length + 1) s.data 1 1 [] (by intro t ht; cases ht)
    rw [hle] at this
    exact this
  rcases oe0 with _ | e0
  · exact ts_ok_append h0 (by intro habs; cases habs)
  · exact ts_ok_append h0 (by intro habs; cases habs)

/-- All names of an expression are free of lower-case ASCII letters. -/
def enl (e : Expression) : Prop := ∀ n ∈ expr_names e, no_lower n = true

/-- All names of a statement are free of lower-case ASCII letters. -/
def stn (st : Statement) : Prop := ∀ n ∈ statement_names st, no_lower n = true

/-- A successful `consume` returns the current token, with the requested
type, and the tail of the suffix. -/
theorem consume_ok_parts {ts : List Token} {tt : TokenType} {msg : String}
    {tok : Token} {rest : List Token}
    (h : consume ts tt msg = .ok (tok, rest)) :
    tok.type = tt ∧ tok = current_token ts ∧ rest = ts.tail := by
  unfold consume at h
  split at h
  · simp only [Except.ok.injEq, Prod.mk.injEq] at h
    obtain ⟨h1, h2⟩ := h
    subst h1
    subst h2
    refine ⟨?_, rfl, rfl⟩
    rename_i hm
    unfold match1 at hm
    exact beq_iff_eq.mp hm
  · exact absurd h (by simp)

/-- Consuming an identifier from an invariant-satisfying suffix yields an
upper-cased value and keeps the invariant. -/
theorem consume_ident_value {ts : List Token} {msg : String}
    {tok : Token} {rest : List Token} (hts : ts_ok ts)
    (h : consume ts .identifier msg = .ok (tok, rest)) :
    no_lower tok.value = true ∧ rest = ts.tail ∧ ts_ok rest := by
  obtain ⟨htype, hcur, hrest⟩ := consume_ok_parts h
  subst hcur
  subst hrest
  exact ⟨current_token_ok hts htype, rfl, ts_ok_tail hts⟩

/-- A parsed literal has no names and consumes one token. -/
theorem parse_literal_shape {ts : List Token} {e : Expression} {rest : List Token}
    (h : parse_literal ts = .ok (e, rest)) :
    expr_names e = [] ∧ rest = ts.tail := by
  unfold parse_literal at h
  try simp only [] at h
  repeat' split at h
  all_goals try exact Except.noConfusion h
  all_goals simp only [Except.ok.injEq, Prod.mk.injEq] at h
  all_goals obtain ⟨h1, h2⟩ := h
  all_goals subst h1
  all_goals subst h2
  all_goals exact ⟨rfl, rfl⟩

/-- A parsed primary has upper-cased names and consumes one token. -/
theorem parse_primary_names {ts : List Token} {e : Expression} {rest : List Token}
    (hts : ts_ok ts) (h : parse_primary ts = .ok (e, rest)) :
    enl e ∧ rest = ts.tail := by
  unfold parse_primary at h
  simp only [] at h
  split at h
  · simp only [Except.ok.injEq, Prod.mk.injEq] at h
    obtain ⟨h1, h2⟩ := h
    subst h1
    subst h2
    refine ⟨?_, rfl⟩
    intro n hn
    rw [List.mem_singleton.mp hn]
    refine current_token_ok hts ?_
    rename_i hm
    exact beq_iff_eq.mp hm
  · split at h
    · obtain ⟨hnames, hrest⟩ := parse_literal_shape h
      refine ⟨?_, hrest⟩
      intro n hn
      rw [hnames] at hn
      cases hn
    · exact absurd h (by simp)

/-- A parsed comparison has upper-cased names and keeps the invariant. -/
theorem parse_comparison_names {ts : List Token} {e : Expression}
    {rest : List Token} (hts : ts_ok ts)
    (h : parse_comparison ts = .ok (e, rest)) :
    enl e ∧ ts_ok rest := by
  unfold parse_comparison at h
  simp only [Bind.bind, Except.bind, pure, Except.pure] at h
  split at h
  · exact absurd h (by simp)
  case h_2 v heq =>
    obtain ⟨hleft, hts1⟩ :
        enl v.1 ∧ v.2 = ts.tail := parse_primary_names hts heq
    have hok1 : ts_ok v.2 := hts1 ▸ ts_ok_tail hts
    split at h
    · split at h
      · exact absurd h (by simp)
      case h_2 v2 heq2 =>
        obtain ⟨hright, hts2⟩ := parse_primary_names (ts_ok_tail hok1) heq2
        simp only [Except.ok.injEq, Prod.mk.injEq] at h
        obtain ⟨h1, h2⟩ := h
        subst h1
        subst h2
        refine ⟨?_, hts2 ▸ ts_ok_tail (ts_ok_tail hok1)⟩
        intro n hn
        simp only [expr_names, List.mem_append] at hn
        rcases hn with hn | hn
        · exact hleft n hn
        · exact hright n hn
    · simp only [Except.ok.injEq, Prod.mk.injEq] at h
      obtain ⟨h1, h2⟩ := h
      subst h1
      subst h2
      exact ⟨hleft, hok1⟩

/-- `parse_expression` has the same invariant as `parse_comparison`. -/
theorem parse_expression_names {ts : List Token} {e : Expression}
    {rest : List Token} (hts : ts_ok ts)
    (h : parse_expression ts = .ok (e, rest)) :
    enl e ∧ ts_ok rest :=
  parse_comparison_names hts h

/-- A parsed data type keeps the invariant on the remaining tokens. -/
theorem parse_data_type_rest {ts : List Token} {dt : DataType}
    {rest : List Token} (hts : ts_ok ts)
    (h : parse_data_type ts = .ok (dt, rest)) : ts_ok rest := by
  unfold parse_data_type at h
  simp only [Bind.bind, Except.bind, pure, Except.pure] at h
  repeat' split at h
  all_goals try exact Except.noConfusion h
  all_goals simp only [Except.ok.injEq, Prod.mk.injEq] at h
  all_goals obtain ⟨h1, h2⟩ := h
  all_goals subst h2
  · rename_i x1 v heq x2 v2 heq2
    obtain ⟨-, -, hrest⟩ := consume_ok_parts heq
    obtain ⟨-, -, hrest2⟩ := consume_ok_parts heq2
    rw [hrest2, hrest]
    exact ts_ok_tail (ts_ok_tail (ts_ok_tail (ts_ok_tail hts)))
  · exact ts_ok_tail hts

/-- A parsed column definition has an upper-cased name and keeps the
invariant. -/
theorem parse_column_definition_names {ts : List Token} {col : ColumnDef}
    {rest : List Token} (hts : ts_ok ts)
    (h : parse_column_definition ts = .ok (col, rest)) :
    no_lower col.name = true ∧ ts_ok rest := by
  unfold parse_column_definition at h
  simp only [Bind.bind, Except.bind, pure, Except.pure] at h
  repeat' split at h
  all_goals try exact Except.noConfusion h
  rename_i x1 v heq x2 v2 heq2
  simp only [Except.ok.injEq, Prod.mk.injEq] at h
  obtain ⟨h1, h2⟩ := h
  subst h1
  subst h2
  obtain ⟨hval, -, hok⟩ := consume_ident_value hts heq
  exact ⟨hval, (parse_data_type_rest hok heq2)⟩

/-- Appending one element to an everywhere-true list keeps it so. -/
theorem all_append_singleton {α : Type} {P : α → Prop} {l : List α} {x : α}
    (h1 : ∀ a ∈ l, P a) (h2 : P x) : ∀ a ∈ l ++ [x], P a := by
  intro a ha
  rcases List.mem_append.mp ha with hm | hm
  · exact h1 a hm
  · rw [List.mem_singleton.mp hm]
    exact h2

/-- The column-definition loop yields upper-cased column names and keeps the
token invariant. -/
theorem create_columns_loop_names :
    ∀ (fuel : Nat) (ts : List Token) (acc : List ColumnDef),
      ts_ok ts → (∀ c ∈ acc, no_lower c.name = true) →
      ∀ (cols : List ColumnDef) (rest : List Token),
        create_columns_loop fuel ts acc = .ok (cols, rest) →
        (∀ c ∈ cols, no_lower c.name = true) ∧ ts_ok rest := by
  intro fuel
  induction fuel with
  | zero =>
    intro ts acc _ _ cols rest h
    simp [create_columns_loop, throw, throwThe, MonadExcept.throw] at h
  | succ n ih =>
    intro ts acc hts hacc cols rest h
    unfold create_columns_loop at h
    simp only [Bind.bind, Except.bind, pure, Except.pure] at h
    repeat' split at h
    all_goals try exact Except.noConfusion h
    -- exit on the right parenthesis
    case isTrue =>
      simp only [Except.ok.injEq, Prod.mk.injEq] at h
      obtain ⟨h1, h2⟩ := h
      subst h1
      subst h2
      exact ⟨hacc, hts⟩
    -- continue after a comma, or re-check on the right parenthesis
    all_goals obtain ⟨hname, hok⟩ := parse_column_definition_names hts (by assumption)
    all_goals refine ih _ _ ?_ ?_ _ _ h
    all_goals first
      | exact all_append_singleton hacc hname
      | exact ts_ok_tail hok
      | exact hok

/-- A parsed CREATE TABLE statement carries only upper-cased names. -/
theorem parse_create_table_names {ts : List Token} {ct : CreateTableStatement}
    {rest : List Token} (hts : ts_ok ts)
    (h : parse_create_table ts = .ok (ct, rest)) :
    stn (.create ct) ∧ ts_ok rest := by
  unfold parse_create_table at h
  simp only [Bind.bind, Except.bind, pure, Except.pure] at h
  repeat' split at h
  all_goals try exact Except.noConfusion h
  rename_i x1 v1 heq1 htb x2 v2 heq2 x3 v3 heq3 x4 v4 heq4 hempty x5 v5 heq5
  obtain ⟨-, -, hr1⟩ := consume_ok_parts heq1
  have hok1 : ts_ok v1.2 := by rw [hr1]; exact ts_ok_tail hts
  obtain ⟨hnv, hr2, hok2⟩ := consume_ident_value (ts_ok_tail hok1) heq2
  obtain ⟨-, -, hr3⟩ := consume_ok_parts heq3
  have hok3 : ts_ok v3.2 := by rw [hr3]; exact ts_ok_tail hok2
  obtain ⟨hcols, hok4⟩ :=
    create_columns_loop_names _ _ _ hok3 (by intro c hc; cases hc) _ _ heq4
  obtain ⟨-, -, hr5⟩ := consume_ok_parts heq5
  simp only [Except.ok.injEq, Prod.mk.injEq] at h
  obtain ⟨h1, h2⟩ := h
  subst h1
  subst h2
  constructor
  · intro n hn
    simp only [statement_names, List.mem_cons, List.mem_map] at hn
    rcases hn with hn | ⟨c, hc, hn⟩
    · rw [hn]; exact hnv
    · rw [← hn]; exact hcols c hc
  · rw [hr5]
    exact ts_ok_tail hok4

/-- The explicit column-name loop of INSERT yields upper-cased names and
keeps the token invariant. -/
theorem insert_columns_loop_names :
    ∀ (fuel : Nat) (ts : List Token) (acc : List String),
      ts_ok ts → (∀ s ∈ acc, no_lower s = true) →
      ∀ (cols : List String) (rest : List Token),
        insert_columns_loop fuel ts acc = .ok (cols, rest) →
        (∀ s ∈ cols, no_lower s = true) ∧ ts_ok rest := by
  intro fuel
  induction fuel with
  | zero =>
    intro ts acc _ _ cols rest h
    simp [insert_columns_loop, throw, throwThe, MonadExcept.throw] at h
  | succ n ih =>
    intro ts acc hts hacc cols rest h
    unfold insert_columns_loop at h
    simp only [Bind.bind, Except.bind, pure, Except.pure] at h
    repeat' split at h
    all_goals try exact Except.noConfusion h
    case isTrue =>
      simp only [Except.ok.injEq, Prod.mk.injEq] at h
      obtain ⟨h1, h2⟩ := h
      subst h1
      subst h2
      exact ⟨hacc, hts⟩
    all_goals obtain ⟨hname, -, hok⟩ := consume_ident_value hts (by assumption)
    all_goals refine ih _ _ ?_ ?_ _ _ h
    all_goals first
      | exact all_append_singleton hacc hname
      | exact ts_ok_tail hok
      | exact hok

/-- The value loop of INSERT yields name-free literals and keeps the token
invariant. -/
theorem insert_values_loop_names :
    ∀ (fuel : Nat) (ts : List Token) (acc : List Expression),
      ts_ok ts → (∀ e ∈ acc, enl e) →
      ∀ (vals : List Expression) (rest : List Token),
        insert_values_loop fuel ts acc = .ok (vals, rest) →
        (∀ e ∈ vals, enl e) ∧ ts_ok rest := by
  intro fuel
  induction fuel with
  | zero =>
    intro ts acc _ _ vals rest h
    simp [insert_values_loop, throw, throwThe, MonadExcept.throw] at h
  | succ n ih =>
    intro ts acc hts hacc vals rest h
    unfold insert_values_loop at h
    simp only [Bind.bind, Except.bind, pure, Except.pure] at h
    repeat' split at h
    all_goals try exact Except.noConfusion h
    case isTrue =>
      simp only [Except.ok.injEq, Prod.mk.injEq] at h
      obtain ⟨h1, h2⟩ := h
      subst h1
      subst h2
      exact ⟨hacc, hts⟩
    all_goals obtain ⟨hnames, hrest⟩ := parse_literal_shape (by assumption)
    all_goals refine ih _ _ ?_ ?_ _ _ h
    all_goals first
      | exact all_append_singleton hacc
          (fun nn hnn => absurd hnn (by rw [hnames]; simp))
      | (rw [hrest]; exact ts_ok_tail (ts_ok_tail hts))
      | (rw [hrest]; exact ts_ok_tail hts)

/-- A parsed INSERT statement carries only upper-cased names. -/
theorem parse_insert_names {ts : List Token} {st : InsertStatement}
    {rest : List Token} (hts : ts_ok ts)
    (h : parse_insert ts = .ok (st, rest)) :
    stn (.insert st) ∧ ts_ok rest := by
  unfold parse_insert at h
  simp only [Bind.bind, Except.bind, pure, Except.pure] at h
  repeat' split at h
  all_goals try exact Except.noConfusion h
  -- survivor with the explicit column list
  next x1 v1 heq1 hinto x2 v2 heq2 hlp x3 v3 heq3 x4 v4 heq4 hval x5 v5 heq5
      x6 v6 heq6 x7 v7 heq7 =>
    obtain ⟨-, -, hr1⟩ := consume_ok_parts heq1
    have hok1 : ts_ok v1.2 := by rw [hr1]; exact ts_ok_tail hts
    obtain ⟨hnv, hr2, hok2⟩ := consume_ident_value (ts_ok_tail hok1) heq2
    obtain ⟨hcols, hok3⟩ :=
      insert_columns_loop_names _ _ _ (ts_ok_tail hok2) (by intro s hs; cases hs)
        _ _ heq3
    obtain ⟨-, -, hr4⟩ := consume_ok_parts heq4
    have hok4 : ts_ok v4.2 := by rw [hr4]; exact ts_ok_tail hok3
    obtain ⟨-, -, hr5⟩ := consume_ok_parts heq5
    have hok5 : ts_ok v5.2 := by rw [hr5]; exact ts_ok_tail (ts_ok_tail hok4)
    obtain ⟨hrow, hok6⟩ :=
      insert_values_loop_names _ _ _ hok5 (by intro e he; cases he) _ _ heq6
    obtain ⟨-, -, hr7⟩ := consume_ok_parts heq7
    simp only [Except.ok.injEq, Prod.mk.injEq] at h
    obtain ⟨h1, h2⟩ := h
    subst h1
    subst h2
    constructor
    · intro n hn
      simp only [statement_names, List.mem_cons, List.mem_append,
        Option.getD_some, List.mem_flatMap, List.flatten] at hn
      rcases hn with hn | hn | ⟨e, he, hn⟩
      · rw [hn]; exact hnv
      · exact hcols n hn
      · exact hrow e (by simpa using he) n hn
    · rw [hr7]
      exact ts_ok_tail hok6
  -- survivor without the explicit column list
  next x1 v1 heq1 hinto x2 v2 heq2 hnlp hval x3 v3 heq3 x4 v4 heq4 x5 v5 heq5 =>
    obtain ⟨-, -, hr1⟩ := consume_ok_parts heq1
    have hok1 : ts_ok v1.2 := by rw [hr1]; exact ts_ok_tail hts
    obtain ⟨hnv, hr2, hok2⟩ := consume_ident_value (ts_ok_tail hok1) heq2
    obtain ⟨-, -, hr3⟩ := consume_ok_parts heq3
    have hok3 : ts_ok v3.2 := by rw [hr3]; exact ts_ok_tail (ts_ok_tail hok2)
    obtain ⟨hrow, hok4⟩ :=
      insert_values_loop_names _ _ _ hok3 (by intro e he; cases he) _ _ heq4
    obtain ⟨-, -, hr5⟩ := consume_ok_parts heq5
    simp only [Except.ok.injEq, Prod.mk.injEq] at h
    obtain ⟨h1, h2⟩ := h
    subst h1
    subst h2
    constructor
    · intro n hn
      simp only [statement_names, List.mem_cons, List.mem_append,
        Option.getD_none, List.mem_flatMap, List.flatten,
        List.not_mem_nil, false_or] at hn
      rcases hn with hn | ⟨e, he, hn⟩
      · rw [hn]; exact hnv
      · exact hrow e (by simpa using he) n hn
    · rw [hr5]
      exact ts_ok_tail hok4

/-- The select-list loop yields upper-cased identifiers and keeps the token
invariant. -/
theorem select_list_loop_names :
    ∀ (fuel : Nat) (ts : List Token) (acc : List Expression),
      ts_ok ts → (∀ e ∈ acc, enl e) →
      ∀ (lst : List Expression) (rest : List Token),
        select_list_loop fuel ts acc = .ok (lst, rest) →
        (∀ e ∈ lst, enl e) ∧ ts_ok rest := by
  intro fuel
  induction fuel with
  | zero =>
    intro ts acc _ _ lst rest h
    simp [select_list_loop, throw, throwThe, MonadExcept.throw] at h
  | succ n ih =>
    intro ts acc hts hacc lst rest h
    unfold select_list_loop at h
    try simp only [] at h
    repeat' split at h
    all_goals try exact Except.noConfusion h
    all_goals
      have henl : enl (.identifier (current_token ts).value
          (current_token ts).line (current_token ts).column) := by
        intro n hn
        rw [List.mem_singleton.mp hn]
        exact current_token_ok hts (beq_iff_eq.mp (by assumption))
    · exact ih _ _ (ts_ok_tail (ts_ok_tail hts))
        (all_append_singleton hacc henl) _ _ h
    · simp only [pure, Except.pure, Except.ok.injEq, Prod.mk.injEq] at h
      obtain ⟨h1, h2⟩ := h
      subst h1
      subst h2
      exact ⟨all_append_singleton hacc henl, ts_ok_tail hts⟩

/-- A parsed SELECT statement carries only upper-cased names. -/
theorem parse_select_names {ts : List Token} {st : SelectStatement}
    {rest : List Token} (hts : ts_ok ts)
    (h : parse_select ts = .ok (st, rest)) :
    stn (.select st) ∧ ts_ok rest := by
  unfold parse_select at h
  simp only [Bind.bind, Except.bind, pure, Except.pure] at h
  repeat' split at h
  all_goals try exact Except.noConfusion h
  next x1 v1 heq1 x2 v2 heq2 hfrom x3 v3 heq3 hwhere x4 v4 heq4 =>
    obtain ⟨-, -, hr1⟩ := consume_ok_parts heq1
    have hok1 : ts_ok v1.2 := by rw [hr1]; exact ts_ok_tail hts
    obtain ⟨hlst, hok2⟩ :=
      select_list_loop_names _ _ _ hok1 (by intro e he; cases he) _ _ heq2
    obtain ⟨hnv, hr3, hok3⟩ := consume_ident_value (ts_ok_tail hok2) heq3
    obtain ⟨hw, hok4⟩ := parse_expression_names (ts_ok_tail hok3) heq4
    simp only [Except.ok.injEq, Prod.mk.injEq] at h
    obtain ⟨h1, h2⟩ := h
    subst h1
    subst h2
    constructor
    · intro n hn
      simp only [statement_names, opt_expr_names, List.mem_cons,
        List.mem_append, List.mem_flatMap] at hn
      rcases hn with hn | ⟨e, he, hn⟩ | hn
      · rw [hn]; exact hnv
      · exact hlst e he n hn
      · exact hw n hn
    · exact hok4
  next x1 v1 heq1 x2 v2 heq2 hfrom x3 v3 heq3 hnwhere =>
    obtain ⟨-, -, hr1⟩ := consume_ok_parts heq1
    have hok1 : ts_ok v1.2 := by rw [hr1]; exact ts_ok_tail hts
    obtain ⟨hlst, hok2⟩ :=
      select_list_loop_names _ _ _ hok1 (by intro e he; cases he) _ _ heq2
    obtain ⟨hnv, hr3, hok3⟩ := consume_ident_value (ts_ok_tail hok2) heq3
    simp only [Except.ok.injEq, Prod.mk.injEq] at h
    obtain ⟨h1, h2⟩ := h
    subst h1
    subst h2
    constructor
    · intro n hn
      simp only [statement_names, opt_expr_names, List.mem_cons,
        List.mem_append, List.mem_flatMap, List.not_mem_nil, or_false] at hn
      rcases hn with hn | ⟨e, he, hn⟩
      · rw [hn]; exact hnv
      · exact hlst e he n hn
    · exact hok3

/-- A parsed DELETE statement carries only upper-cased names. -/
theorem parse_delete_names {ts : List Token} {st : DeleteStatement}
    {rest : List Token} (hts : ts_ok ts)
    (h : parse_delete ts = .ok (st, rest)) :
    stn (.delete st) ∧ ts_ok rest := by
  unfold parse_delete at h
  simp only [Bind.bind, Except.bind, pure, Except.pure] at h
  repeat' split at h
  all_goals try exact Except.noConfusion h
  next x1 v1 heq1 hfrom x2 v2 heq2 hwhere x3 v3 heq3 =>
    obtain ⟨-, -, hr1⟩ := consume_ok_parts heq1
    have hok1 : ts_ok v1.2 := by rw [hr1]; exact ts_ok_tail hts
    obtain ⟨hnv, hr2, hok2⟩ := consume_ident_value (ts_ok_tail hok1) heq2
    obtain ⟨hw, hok3⟩ := parse_expression_names (ts_ok_tail hok2) heq3
    simp only [Except.ok.injEq, Prod.mk.injEq] at h
    obtain ⟨h1, h2⟩ := h
    subst h1
    subst h2
    constructor
    · intro n hn
      simp only [statement_names, opt_expr_names, List.mem_cons] at hn
      rcases hn with hn | hn
      · rw [hn]; exact hnv
      · exact hw n hn
    · exact hok3
  next x1 v1 heq1 hfrom x2 v2 heq2 hnwhere =>
    obtain ⟨-, -, hr1⟩ := consume_ok_parts heq1
    have hok1 : ts_ok v1.2 := by rw [hr1]; exact ts_ok_tail hts
    obtain ⟨hnv, hr2, hok2⟩ := consume_ident_value (ts_ok_tail hok1) heq2
    simp only [Except.ok.injEq, Prod.mk.injEq] at h
    obtain ⟨h1, h2⟩ := h
    subst h1
    subst h2
    constructor
    · intro n hn
      simp only [statement_names, opt_expr_names, List.mem_cons,
        List.not_mem_nil, or_false] at hn
      rw [hn]
      exact hnv
    · exact hok2

/-- The assignment loop of UPDATE yields upper-cased column names and
values, and keeps the token invariant. -/
theorem update_assignments_loop_names :
    ∀ (fuel : Nat) (ts : List Token) (acc : List (String × Expression)),
      ts_ok ts → (∀ a ∈ acc, no_lower a.1 = true ∧ enl a.2) →
      ∀ (asg : List (String × Expression)) (rest : List Token),
        update_assignments_loop fuel ts acc = .ok (asg, rest) →
        (∀ a ∈ asg, no_lower a.1 = true ∧ enl a.2) ∧ ts_ok rest := by
  intro fuel
  induction fuel with
  | zero =>
    intro ts acc _ _ asg rest h
    simp [update_assignments_loop, throw, throwThe, MonadExcept.throw] at h
  | succ n ih =>
    intro ts acc hts hacc asg rest h
    unfold update_assignments_loop at h
    simp only [Bind.bind, Except.bind, pure, Except.pure] at h
    repeat' split at h
    all_goals try exact Except.noConfusion h
    all_goals rename_i x1 v1 heq1 x2 v2 heq2 x3 v3 heq3 hcomma
    all_goals obtain ⟨hnv, hr1, hok1⟩ := consume_ident_value hts heq1
    all_goals obtain ⟨-, -, hr2⟩ := consume_ok_parts heq2
    all_goals
      have hok2 : ts_ok v2.2 := by rw [hr2]; exact ts_ok_tail hok1
    all_goals obtain ⟨henl, hr3⟩ := parse_primary_names hok2 heq3
    all_goals
      have hok3 : ts_ok v3.2 := by rw [hr3]; exact ts_ok_tail hok2
    · exact ih _ _ (ts_ok_tail hok3)
        (all_append_singleton hacc ⟨hnv, henl⟩) _ _ h
    · simp only [Except.ok.injEq, Prod.mk.injEq] at h
      obtain ⟨h1, h2⟩ := h
      subst h1
      subst h2
      exact ⟨all_append_singleton hacc ⟨hnv, henl⟩, hok3⟩

/-- A parsed UPDATE statement carries only upper-cased names. -/
theorem parse_update_names {ts : List Token} {st : UpdateStatement}
    {rest : List Token} (hts : ts_ok ts)
    (h : parse_update ts = .ok (st, rest)) :
    stn (.update st) ∧ ts_ok rest := by
  unfold parse_update at h
  simp only [Bind.bind, Except.bind, pure, Except.pure] at h
  repeat' split at h
  all_goals try exact Except.noConfusion h
  next x1 v1 heq1 x2 v2 heq2 hset x3 v3 heq3 hwhere x4 v4 heq4 =>
    obtain ⟨-, -, hr1⟩ := consume_ok_parts heq1
    have hok1 : ts_ok v1.2 := by rw [hr1]; exact ts_ok_tail hts
    obtain ⟨hnv, hr2, hok2⟩ := consume_ident_value hok1 heq2
    obtain ⟨hasg, hok3⟩ :=
      update_assignments_loop_names _ _ _ (ts_ok_tail hok2)
        (by intro a ha; cases ha) _ _ heq3
    obtain ⟨hw, hok4⟩ := parse_expression_names (ts_ok_tail hok3) heq4
    simp only [Except.ok.injEq, Prod.mk.injEq] at h
    obtain ⟨h1, h2⟩ := h
    subst h1
    subst h2
    constructor
    · intro n hn
      simp only [statement_names, opt_expr_names, List.mem_cons,
        List.mem_append, List.mem_flatMap] at hn
      rcases hn with hn | ⟨a, ha, hn⟩ | hn
      · rw [hn]; exact hnv
      · rcases hn with hn | hn
        · rw [hn]; exact (hasg a ha).1
        · exact (hasg a ha).2 n hn
      · exact hw n hn
    · exact hok4
  next x1 v1 heq1 x2 v2 heq2 hset x3 v3 heq3 hnwhere =>
    obtain ⟨-, -, hr1⟩ := consume_ok_parts heq1
    have hok1 : ts_ok v1.2 := by rw [hr1]; exact ts_ok_tail hts
    obtain ⟨hnv, hr2, hok2⟩ := consume_ident_value hok1 heq2
    obtain ⟨hasg, hok3⟩ :=
      update_assignments_loop_names _ _ _ (ts_ok_tail hok2)
        (by intro a ha; cases ha) _ _ heq3
    simp only [Except.ok.injEq, Prod.mk.injEq] at h
    obtain ⟨h1, h2⟩ := h
    subst h1
    subst h2
    constructor
    · intro n hn
      simp only [statement_names, opt_expr_names, List.mem_cons,
        List.mem_append, List.mem_flatMap, List.not_mem_nil, or_false] at hn
      rcases hn with hn | ⟨a, ha, hn⟩
      · rw [hn]; exact hnv
      · rcases hn with hn | hn
        · rw [hn]; exact (hasg a ha).1
        · exact (hasg a ha).2 n hn
    · exact hok3

/-- Every successfully parsed statement carries only upper-cased names and
keeps the token invariant. -/
theorem parse_statement_names {ts : List Token} {st : Statement}
    {rest : List Token} (hts : ts_ok ts)
    (h : parse_statement ts = .ok (st, rest)) :
    stn st ∧ ts_ok rest := by
  unfold parse_statement at h
  try simp only [] at h
  repeat' split at h
  all_goals try exact Except.noConfusion h
  all_goals rw [exmap_ok] at h
  all_goals obtain ⟨v, heq, hmap⟩ := h
  all_goals simp only [Prod.mk.injEq] at hmap
  all_goals obtain ⟨h1, h2⟩ := hmap
  all_goals subst h1
  all_goals subst h2
  · exact parse_create_table_names hts heq
  · exact parse_insert_names hts heq
  · exact parse_select_names hts heq
  · exact parse_delete_names hts heq
  · exact parse_update_names hts heq

/-- C3 amended: every identifier, column and table name stored in a parsed
program is upper-cased (contains no lower-case ASCII letter), because the
lexer upper-cases every identifier lexeme before the parser stores it. -/
theorem C3_ast_names_upper_cased :
    ∀ (s : String) (p : SQLProgram), parse_sql s = .ok p →
      ∀ n ∈ program_names p, no_lower n = true := by
  intro s p h n hn
  unfold parse_sql at h
  rcases htok : tokenize s with ⟨toks, oe⟩
  rw [htok] at h
  rcases oe with _ | e
  · simp only [] at h
    rcases hp : parse toks with pe | prog
    · rw [hp] at h
      exact Except.noConfusion h
    · rw [hp] at h
      simp only [Except.ok.injEq] at h
      subst h
      unfold parse at hp
      rw [exmap_ok] at hp
      obtain ⟨sts, hloop, hprog⟩ := hp
      subst hprog
      have hts : ts_ok toks := by
        have := tokenize_ts_ok s
        rw [htok] at this
        exact this
      simp only [program_names, List.mem_flatMap] at hn
      obtain ⟨st, hst, hn⟩ := hn
      refine parse_loop_all ts_ok stn
        (fun ts' st' rest' hinv hps => parse_statement_names hinv hps)
        (fun _ hinv => ts_ok_tail hinv)
        (toks.length + 1) toks [] hts (by intro st' hst'; cases hst')
        sts hloop st hst n hn
  · exact Except.noConfusion h

/-- C3 amended witness: the upper-cased table name of a concretely parsed
program. -/
theorem C3_ast_names_upper_cased_witness : no_lower "STUDENT" = true :=
  C3_ast_names_upper_cased "CREATE TABLE Student (id INT)"
    ⟨[.create ⟨"STUDENT", [⟨"ID", ⟨"INT", none, 1, 26⟩, 1, 23⟩], 1, 1⟩], 1, 1⟩
    (by rfl) "STUDENT" (by simp [program_names, statement_names])

end MiniDB
